import Mathlib

/-
Verification development for the button-data proposal-visualizer pipeline.

The pipeline (src/analyze.py, src/utils.py) extracts proposal records from
per-company JSON files, classifies them in batches through an LLM API, and
aggregates label counts.  This file gives a shallow embedding of the parts of
that code that the specification's claims are about:

  * Python/JSON values are modelled by `JValue`; parsed JSON numbers keep
    either their exact integer value (`JNum.int`, Python ints are unbounded)
    or an idealized real value (`JNum.float`: the exact decimal value as a
    rational, plus infinities and NaN; IEEE-754 rounding of `json.loads` is
    abstracted to exact decimal arithmetic, which is only observable in
    corners none of the claims touch).
  * Records (Python dicts with string keys) are insertion-ordered association
    lists; assignment to an existing key keeps its position, assignment to a
    new key appends (CPython dict semantics).
  * Fallible Python code is modelled with `Except PyErr`; a bare
    `except Exception` in the source corresponds to matching on the error.
  * The LLM network call and the filesystem are inputs (oracles) of the
    modelled functions.
-/

namespace Pipeline

/-- Kinds of Python exceptions the modelled code can raise. -/
inductive PyErr where
  | keyError
  | typeError
  | attributeError
  | fileNotFound
  | valueError
deriving DecidableEq, Repr

/-- Idealized value of a Python float produced by `json.loads`: the exact
decimal value as a rational, or an infinity, or NaN. -/
inductive FloatVal where
  | finite (q : ℚ)
  | inf
  | neginf
  | nan
deriving DecidableEq, Repr

/-- A JSON number as `json.loads` returns it: a Python int for integral
lexemes, a Python float otherwise. -/
inductive JNum where
  | int (i : ℤ)
  | float (f : FloatVal)
deriving DecidableEq, Repr

/-- JSON / Python values flowing through the pipeline. -/
inductive JValue where
  | null
  | bool (b : Bool)
  | num (n : JNum)
  | str (s : String)
  | arr (xs : List JValue)
  | obj (fields : List (String × JValue))

mutual

/-- Structural equality test on JSON values. -/
def beqJ : JValue → JValue → Bool
  | .null, .null => true
  | .bool a, .bool b => a == b
  | .num a, .num b => a == b
  | .str a, .str b => a == b
  | .arr xs, .arr ys => beqJList xs ys
  | .obj fs, .obj gs => beqJFields fs gs
  | _, _ => false

/-- Structural equality test on lists of JSON values. -/
def beqJList : List JValue → List JValue → Bool
  | [], [] => true
  | x :: xs, y :: ys => beqJ x y && beqJList xs ys
  | _, _ => false

/-- Structural equality test on JSON object field lists. -/
def beqJFields : List (String × JValue) → List (String × JValue) → Bool
  | [], [] => true
  | (k, v) :: fs, (k', v') :: gs => k == k' && beqJ v v' && beqJFields fs gs
  | _, _ => false

end

/-- A proposal record: a Python dict with string keys, as an
insertion-ordered association list. JSON objects share this representation. -/
abbrev Record := List (String × JValue)

/-- Lookup of a key in a dict / JSON object (keys are unique in records the
pipeline builds, so first match suffices). -/
def getField : Record → String → Option JValue
  | [], _ => none
  | (k', v) :: rest, k => if k' = k then some v else getField rest k

/-- Python dict assignment `d[k] = v`: replace in place if the key exists
(keeping its position), append otherwise. -/
def setField : Record → String → JValue → Record
  | [], k, v => [(k, v)]
  | (k', v') :: rest, k, v =>
    if k' = k then (k, v) :: rest else (k', v') :: setField rest k v

/-- Python `d.get(k, default)` on a value known to be a dict; on a non-dict
the source would have raised before reaching any use of this function, so the
fallback branch returns the default. -/
def objGetD (v : JValue) (k : String) (d : JValue) : JValue :=
  match v with
  | .obj fields => (getField fields k).getD d
  | _ => d

/-- Python subscript `v[k]` with a string key: KeyError on a dict without the
key, TypeError on any non-dict. -/
def pySubscript (v : JValue) (k : String) : Except PyErr JValue :=
  match v with
  | .obj fields =>
    match getField fields k with
    | some x => .ok x
    | none => .error .keyError
  | _ => .error .typeError

/-- Python truthiness of a JSON value. -/
def pyTruthy : JValue → Bool
  | .null => false
  | .bool b => b
  | .num (.int i) => if i = 0 then false else true
  | .num (.float (.finite q)) => if q = 0 then false else true
  | .num (.float _) => true
  | .str s => if s = "" then false else true
  | .arr [] => false
  | .arr (_ :: _) => true
  | .obj [] => false
  | .obj (_ :: _) => true

/-- Iterating a Python value with `for x in v`: lists yield elements, strings
yield one-character strings, dicts yield their keys; numbers, booleans and
None raise TypeError. -/
def pyIterToList (v : JValue) : Except PyErr (List JValue) :=
  match v with
  | .arr xs => .ok xs
  | .str s => .ok (s.data.map fun c => JValue.str (String.mk [c]))
  | .obj fields => .ok (fields.map fun p => JValue.str p.1)
  | _ => .error .typeError

/-! JSON parsing, modelling Python `json.loads` (default settings): parse one
value, allowing surrounding whitespace, and fail on any extra data.  Numbers
follow the `json` module's regex (integer lexemes become ints, everything
else floats); the constants `NaN`, `Infinity` and `-Infinity` are accepted;
strings are strict (unescaped control characters are rejected). -/

/-- The opening brace character (written by code point for hygiene). -/
def lbrace : Char := Char.ofNat 123

/-- The closing brace character (written by code point for hygiene). -/
def rbrace : Char := Char.ofNat 125

/-- JSON whitespace characters. -/
def isWsChar (c : Char) : Bool :=
  c = ' ' || c = '\t' || c = '\n' || c = '\r'

/-- Drop leading JSON whitespace. -/
def skipWs : List Char → List Char
  | [] => []
  | c :: r => if isWsChar c then skipWs r else c :: r

/-- Does the list start with the given character sequence? -/
def startsWithSeq : List Char → List Char → Bool
  | [], _ => true
  | _ :: _, [] => false
  | p :: ps, c :: cs => p = c && startsWithSeq ps cs

/-- Value of one hexadecimal digit. -/
def hexDigitVal (c : Char) : Option Nat :=
  if '0' ≤ c ∧ c ≤ '9' then some (c.toNat - '0'.toNat)
  else if 'a' ≤ c ∧ c ≤ 'f' then some (c.toNat - 'a'.toNat + 10)
  else if 'A' ≤ c ∧ c ≤ 'F' then some (c.toNat - 'A'.toNat + 10)
  else none

/-- Parse exactly four hexadecimal digits. -/
def parseHex4 : List Char → Option (Nat × List Char)
  | a :: b :: c :: d :: rest =>
    match hexDigitVal a, hexDigitVal b, hexDigitVal c, hexDigitVal d with
    | some va, some vb, some vc, some vd =>
      some (((va * 16 + vb) * 16 + vc) * 16 + vd, rest)
    | _, _, _, _ => none
  | _ => none

/-- Single-character JSON escape codes. -/
def escChar (c : Char) : Option Char :=
  if c = '"' then some '"'
  else if c = '\\' then some '\\'
  else if c = '/' then some '/'
  else if c = 'b' then some (Char.ofNat 8)
  else if c = 'f' then some (Char.ofNat 12)
  else if c = 'n' then some '\n'
  else if c = 'r' then some (Char.ofNat 13)
  else if c = 't' then some '\t'
  else none

/-- Parse the body of a JSON string after the opening quote, returning the
decoded characters and the input after the closing quote.  Surrogate pairs in
`\u` escapes are combined; a lone surrogate (which Python would keep in the
str) degrades through `Char.ofNat` — none of the modelled data contains one.
Fuel is one unit per consumed character, so `length + 1` always suffices. -/
def parseStringBody : Nat → List Char → Option (List Char × List Char)
  | 0, _ => none
  | _ + 1, [] => none
  | fuel + 1, c :: rest =>
    if c = '"' then some ([], rest)
    else if c = '\\' then
      match rest with
      | [] => none
      | e :: rest2 =>
        if e = 'u' then
          match parseHex4 rest2 with
          | none => none
          | some (n, rest3) =>
            if 0xD800 ≤ n ∧ n ≤ 0xDBFF then
              match rest3 with
              | '\\' :: 'u' :: rest4 =>
                match parseHex4 rest4 with
                | some (m, rest5) =>
                  if 0xDC00 ≤ m ∧ m ≤ 0xDFFF then
                    match parseStringBody fuel rest5 with
                    | some (cs, r) =>
                      some (Char.ofNat (0x10000 + (n - 0xD800) * 0x400 + (m - 0xDC00)) :: cs, r)
                    | none => none
                  else
                    match parseStringBody fuel rest3 with
                    | some (cs, r) => some (Char.ofNat n :: cs, r)
                    | none => none
                | none =>
                  match parseStringBody fuel rest3 with
                  | some (cs, r) => some (Char.ofNat n :: cs, r)
                  | none => none
              | _ =>
                match parseStringBody fuel rest3 with
                | some (cs, r) => some (Char.ofNat n :: cs, r)
                | none => none
            else
              match parseStringBody fuel rest3 with
              | some (cs, r) => some (Char.ofNat n :: cs, r)
              | none => none
        else
          match escChar e with
          | some c' =>
            match parseStringBody fuel rest2 with
            | some (cs, r) => some (c' :: cs, r)
            | none => none
          | none => none
    else if c.toNat < 0x20 then none
    else
      match parseStringBody fuel rest with
      | some (cs, r) => some (c :: cs, r)
      | none => none

/-- Natural number denoted by a digit sequence. -/
def digitsToNat (ds : List Char) : Nat :=
  ds.foldl (fun acc c => acc * 10 + (c.toNat - '0'.toNat)) 0

/-- JSON integer part: `0` alone or a nonzero digit followed by digits. -/
def parseIntPart : List Char → Option (List Char × List Char)
  | [] => none
  | c :: rest =>
    if c = '0' then some (['0'], rest)
    else if c.isDigit then
      let (ds, r) := rest.span Char.isDigit
      some (c :: ds, r)
    else none

/-- Exact rational value of a decimal lexeme (sign, integer digits, fraction
digits, optional signed exponent digits).  This is the idealization of the
Python float `json.loads` would construct. -/
def decToRat (neg : Bool) (ip fp : List Char) (ex : Option (Bool × List Char)) : ℚ :=
  let mantissa : ℚ := (digitsToNat (ip ++ fp) : ℚ) / ((10 : ℚ) ^ fp.length)
  let scaled : ℚ :=
    match ex with
    | none => mantissa
    | some (eneg, eds) =>
      let e : ℤ := if eneg then -(digitsToNat eds : ℤ) else (digitsToNat eds : ℤ)
      mantissa * (10 : ℚ) ^ e
  if neg then -scaled else scaled

/-- Parse a JSON number following the `json` module's regex
`-?(0|[1-9]\d*)(\.\d+)?([eE][-+]?\d+)?`: fraction and exponent groups are
consumed only when complete, and the lexeme is an int exactly when both
groups are absent. -/
def parseNumber (s : List Char) : Option (JNum × List Char) :=
  let (neg, s1) := match s with
    | '-' :: r => (true, r)
    | _ => (false, s)
  match parseIntPart s1 with
  | none => none
  | some (ip, s2) =>
    let (fp, s3) :=
      match s2 with
      | '.' :: r =>
        match r.span Char.isDigit with
        | ([], _) => (([] : List Char), s2)
        | (ds, r2) => (ds, r2)
      | _ => (([] : List Char), s2)
    let (ex, s4) :=
      match s3 with
      | e :: r =>
        if e = 'e' ∨ e = 'E' then
          let (eneg, r1) := match r with
            | '-' :: r' => (true, r')
            | '+' :: r' => (false, r')
            | _ => (false, r)
          match r1.span Char.isDigit with
          | ([], _) => ((none : Option (Bool × List Char)), s3)
          | (eds, r2) => (some (eneg, eds), r2)
        else ((none : Option (Bool × List Char)), s3)
      | [] => ((none : Option (Bool × List Char)), s3)
    if fp = [] ∧ ex = none then
      some (.int (if neg then -(digitsToNat ip : ℤ) else (digitsToNat ip : ℤ)), s4)
    else
      some (.float (.finite (decToRat neg ip fp ex)), s4)

/-- Insert a key into a JSON object under construction: Python dict
semantics, a duplicate key overwrites in place, a new key appends. -/
def objInsert (fields : List (String × JValue)) (k : String) (v : JValue) :
    List (String × JValue) :=
  setField fields k v

mutual

/-- Parse one JSON value (after optional leading whitespace), returning it
with the unconsumed input.  Fuel decreases on every nested call; since every
recursive step first consumes at least one input character, a budget of twice
the input length plus a constant always suffices. -/
def parseValue : Nat → List Char → Option (JValue × List Char)
  | 0, _ => none
  | fuel + 1, s0 =>
    let s := skipWs s0
    match s with
    | [] => none
    | c :: rest =>
      if c = '"' then
        match parseStringBody (rest.length + 1) rest with
        | some (cs, r) => some (.str (String.mk cs), r)
        | none => none
      else if c = '[' then
        let r1 := skipWs rest
        match r1 with
        | ']' :: r2 => some (.arr [], r2)
        | _ => parseArrayItems fuel r1 []
      else if c = lbrace then
        let r1 := skipWs rest
        match r1 with
        | [] => none
        | d :: r2 => if d = rbrace then some (.obj [], r2) else parseObjItems fuel r1 []
      else if startsWithSeq ['t', 'r', 'u', 'e'] s then some (.bool true, s.drop 4)
      else if startsWithSeq ['f', 'a', 'l', 's', 'e'] s then some (.bool false, s.drop 5)
      else if startsWithSeq ['n', 'u', 'l', 'l'] s then some (.null, s.drop 4)
      else if startsWithSeq ['N', 'a', 'N'] s then some (.num (.float .nan), s.drop 3)
      else if startsWithSeq ['I', 'n', 'f', 'i', 'n', 'i', 't', 'y'] s then
        some (.num (.float .inf), s.drop 8)
      else if startsWithSeq ['-', 'I', 'n', 'f', 'i', 'n', 'i', 't', 'y'] s then
        some (.num (.float .neginf), s.drop 9)
      else
        match parseNumber s with
        | some (n, r) => some (.num n, r)
        | none => none

/-- Parse the items of a JSON array after its first non-`]` token. -/
def parseArrayItems : Nat → List Char → List JValue → Option (JValue × List Char)
  | 0, _, _ => none
  | fuel + 1, s, acc =>
    match parseValue fuel s with
    | none => none
    | some (v, r) =>
      match skipWs r with
      | ',' :: r2 => parseArrayItems fuel (skipWs r2) (acc ++ [v])
      | ']' :: r2 => some (.arr (acc ++ [v]), r2)
      | _ => none

/-- Parse the members of a JSON object after its first non-`rbrace` token. -/
def parseObjItems : Nat → List Char → List (String × JValue) → Option (JValue × List Char)
  | 0, _, _ => none
  | fuel + 1, s, acc =>
    match s with
    | [] => none
    | c :: rest =>
      if c = '"' then
        match parseStringBody (rest.length + 1) rest with
        | none => none
        | some (kcs, r) =>
          match skipWs r with
          | ':' :: r2 =>
            match parseValue fuel r2 with
            | none => none
            | some (v, r3) =>
              let acc2 := objInsert acc (String.mk kcs) v
              match skipWs r3 with
              | ',' :: r5 => parseObjItems fuel (skipWs r5) acc2
              | d :: r5 => if d = rbrace then some (.obj acc2, r5) else none
              | [] => none
          | _ => none
      else none

end

/-- Python `json.loads`: parse one JSON document, allow trailing whitespace,
fail on any extra data. -/
def jsonParse (s : List Char) : Option JValue :=
  match parseValue (2 * s.length + 4) s with
  | some (v, rest) => if (skipWs rest).isEmpty then some v else none
  | none => none

/-! The heuristic JSON extractor `extract_json_from_response` of
src/utils.py: find the first `[` (falling back to the first open brace only
when no `[` exists at all), the last closing delimiter of the same kind, and
run `json.loads` on that slice; any failure yields None. -/

/-- Index of the first character satisfying the predicate. -/
def firstIdxWhere (p : Char → Bool) : List Char → Option Nat
  | [] => none
  | c :: r => if p c then some 0 else (firstIdxWhere p r).map (· + 1)

/-- Index of the last character satisfying the predicate. -/
def lastIdxWhere (p : Char → Bool) : List Char → Option Nat
  | [] => none
  | c :: r =>
    match lastIdxWhere p r with
    | some i => some (i + 1)
    | none => if p c then some 0 else none

/-- Python `str.find` for a single character: first index or `-1`. -/
def pyFindChar (s : List Char) (c : Char) : Int :=
  match firstIdxWhere (· = c) s with
  | some i => (i : Int)
  | none => -1

/-- Python `str.rfind` for a single character: last index or `-1`. -/
def pyRFindChar (s : List Char) (c : Char) : Int :=
  match lastIdxWhere (· = c) s with
  | some i => (i : Int)
  | none => -1

/-- Python slice `s[a:b]` for `0 ≤ a ≤ b`. -/
def pySlice (s : List Char) (a b : Nat) : List Char :=
  (s.drop a).take (b - a)

/-- utils.extract_json_from_response: locate a JSON array or object inside a
free-text reply and parse it; `none` models the `return None` paths (no
delimiter, closing delimiter not after the opening one, or `json.loads`
raising). -/
def extract_json_from_response (response : String) : Option JValue :=
  let s := response.data
  let start0 : Int := pyFindChar s '['
  let start_idx : Int := if start0 = -1 then pyFindChar s lbrace else start0
  if start_idx = -1 then none
  else
    let end_idx : Int :=
      if s.getD start_idx.toNat ' ' = '[' then pyRFindChar s ']' + 1
      else pyRFindChar s rbrace + 1
    if end_idx ≤ start_idx then none
    else jsonParse (pySlice s start_idx.toNat end_idx.toNat)

/-! The network-call wrapper `call_llm` of src/utils.py.  The Anthropic
client call is an oracle assigning each attempt number an outcome; the model
returns the result (`Except` for a raised error; `none` models the implicit
`None` return when the loop body never returns, possible only when
`max_retries = 0`) together with the list of backoff waits in seconds. -/

/-- Outcome of one underlying API attempt: a reply text, an
`anthropic.APIStatusError` with an HTTP status code, or another
`anthropic.APIError` (auth, rate limit, malformed request, connection). -/
inductive ApiOutcome where
  | ok (text : String)
  | statusErr (code : Int)
  | apiErr
deriving DecidableEq, Repr

/-- A raised API error, as propagated by call_llm. -/
inductive ApiRaised where
  | statusErr (code : Int)
  | apiErr
deriving DecidableEq, Repr

/-- The retry loop of call_llm: `attempt` is the current attempt number,
the second argument counts the iterations remaining in
`for attempt in range(max_retries)`.  On a 500 status with attempts
remaining it sleeps `2 ^ attempt` seconds and continues; any other API
error, and a 500 on the last attempt, is re-raised; an exhausted loop
falls through to Python's implicit `return None`. -/
def callLlmGo (outcomes : Nat → ApiOutcome) (max_retries : Nat) :
    Nat → Nat → Except ApiRaised (Option String) × List Nat
  | _, 0 => (.ok none, [])
  | attempt, remaining + 1 =>
    match outcomes attempt with
    | .ok text => (.ok (some text), [])
    | .statusErr code =>
      if code = 500 ∧ attempt < max_retries - 1 then
        let rest := callLlmGo outcomes max_retries (attempt + 1) remaining
        (rest.1, 2 ^ attempt :: rest.2)
      else (.error (.statusErr code), [])
    | .apiErr => (.error .apiErr, [])

/-- utils.call_llm with its retry-on-500 loop (default max_retries = 3). -/
def call_llm (outcomes : Nat → ApiOutcome) (max_retries : Nat) :
    Except ApiRaised (Option String) × List Nat :=
  callLlmGo outcomes max_retries 0 max_retries

/-! The aggregator `count_values` of src/utils.py: collect the field's value
from every record (default "Unknown"), split string values containing ", ",
and count with `collections.Counter`. -/

/-- The separator ", " used for multi-valued labels. -/
def sepCommaSpace : List Char := [',', ' ']

/-- First index at which `sepCommaSpace` occurs as a sublist. -/
def findSep : List Char → Option Nat
  | [] => none
  | c :: r =>
    if startsWithSeq sepCommaSpace (c :: r) then some 0
    else (findSep r).map (· + 1)

/-- Python `", " in s`. -/
def hasSep (s : List Char) : Bool := (findSep s).isSome

theorem findSep_le {s : List Char} {i : Nat} (h : findSep s = some i) :
    i + 2 ≤ s.length := by
  induction s generalizing i with
  | nil => simp [findSep] at h
  | cons c r ih =>
    unfold findSep at h
    by_cases hs : startsWithSeq sepCommaSpace (c :: r) = true
    · simp [hs] at h
      subst h
      cases r with
      | nil => simp [sepCommaSpace, startsWithSeq] at hs
      | cons d t => simp [List.length_cons]
    · simp [hs] at h
      obtain ⟨j, hj, rfl⟩ := h
      have := ih hj
      simp [List.length_cons]
      omega

/-- The recursion of Python `s.split(", ")`, with fuel: every occurrence
consumed removes at least two characters (`findSep_le`), so fuel
`s.length + 1` can never run out. -/
def splitSepGo : Nat → List Char → List (List Char)
  | 0, s => [s]
  | fuel + 1, s =>
    match findSep s with
    | none => [s]
    | some i => s.take i :: splitSepGo fuel (s.drop (i + 2))

/-- Python `s.split(", ")`: split on non-overlapping occurrences of the
separator, left to right. -/
def splitSep (s : List Char) : List (List Char) :=
  splitSepGo (s.length + 1) s

/-- Is a value unhashable in Python (list or dict)?  `Counter` raises
TypeError on such a value. -/
def pyUnhashable : JValue → Bool
  | .arr _ => true
  | .obj _ => true
  | _ => false

/-- Numeric equality across Python int/float, with NaN unequal to itself. -/
def numEqVal : JNum → JNum → Bool
  | .int i, .int j => i == j
  | .int i, .float (.finite q) => (i : ℚ) == q
  | .float (.finite q), .int j => q == (j : ℚ)
  | .float (.finite p), .float (.finite q) => p == q
  | .float .inf, .float .inf => true
  | .float .neginf, .float .neginf => true
  | _, _ => false

/-- Python `==` on the hashable JSON values (None, bool, number, string);
bools compare as the integers 0/1.  Lists and dicts never reach a comparison
in the modelled code because `Counter` raises on them first, so they map to
`false` here. -/
def pyEq : JValue → JValue → Bool
  | .null, .null => true
  | .bool a, .bool b => a == b
  | .bool a, .num n => numEqVal (.int (if a then 1 else 0)) n
  | .num n, .bool b => numEqVal n (.int (if b then 1 else 0))
  | .num m, .num n => numEqVal m n
  | .str a, .str b => a == b
  | _, _ => false

/-- Add one occurrence of a value to a Counter (first-occurrence order). -/
def bump : List (JValue × Nat) → JValue → List (JValue × Nat)
  | [], v => [(v, 1)]
  | (k, n) :: rest, v =>
    if pyEq k v then (k, n + 1) :: rest else (k, n) :: bump rest v

/-- `collections.Counter` over a value list: TypeError on an unhashable
element, otherwise the value → count mapping in first-occurrence order. -/
def counterOf : List (JValue × Nat) → List JValue → Except PyErr (List (JValue × Nat))
  | acc, [] => .ok acc
  | acc, v :: vs =>
    if pyUnhashable v then .error .typeError else counterOf (bump acc v) vs

/-- The entries one record contributes to the value list of count_values:
a string value containing ", " contributes one entry per split component,
everything else one entry (missing fields default to "Unknown"). -/
def valueEntries (item : Record) (field : String) : List JValue :=
  match (getField item field).getD (JValue.str "Unknown") with
  | .str s =>
    if hasSep s.data then (splitSep s.data).map fun cs => JValue.str (String.mk cs)
    else [JValue.str s]
  | v => [v]

/-- The value list `count_values` builds. -/
def collectValues (items : List Record) (field : String) : List JValue :=
  items.flatMap fun item => valueEntries item field

/-- utils.count_values: count occurrences of a field's values, splitting
comma-separated strings. -/
def count_values (items : List Record) (field : String) :
    Except PyErr (List (JValue × Nat)) :=
  counterOf [] (collectValues items field)

/-! The extractor `extract_proposals_from_companies` of src/utils.py.  The
filesystem walk is an input: one entry per discovered proposals.json, in
sorted glob order, carrying the company directory name and the outcome of
`open` + `json.load` (an error models an unreadable file or invalid JSON).
A raised error while processing one company is caught, dropping the rest of
that company's proposals but keeping records already accumulated. -/

/-- The per-field character limits (the function's `text_limits` default is
`defaultTextLimits` below). -/
structure TextLimits where
  current_state : Nat
  problems : Nat
  impact : Nat
  existing_tooling : Nat
  functionality : Nat
  problem_solving : Nat
  risk_assessment : Nat

/-- The default text_limits dict of extract_proposals_from_companies. -/
def defaultTextLimits : TextLimits :=
  ⟨2000, 1500, 1500, 1000, 2000, 1000, 1000⟩

/-- Python `v[:n]`: slices strings and lists, raises TypeError otherwise. -/
def pySliceTo (v : JValue) (n : Nat) : Except PyErr JValue :=
  match v with
  | .str s => .ok (.str (String.mk (s.data.take n)))
  | .arr xs => .ok (.arr (xs.take n))
  | _ => .error .typeError

/-- Python `v.get(k, default)`: AttributeError on a non-dict. -/
def pyGetD (v : JValue) (k : String) (d : JValue) : Except PyErr JValue :=
  match v with
  | .obj fields => .ok ((getField fields k).getD d)
  | _ => .error .attributeError

/-- Build one proposal record (the dict literal plus the Proposed System
block of extract_proposals_from_companies); raises if a narrative field is
not sliceable or the proposal is not a dict. -/
def processProposal (companyName : String) (lim : TextLimits) (proposal : JValue) :
    Except PyErr Record := do
  let pn ← pyGetD proposal "Proposal Name" (.str "")
  let cs ← pySliceTo (← pyGetD proposal "Current State Understanding" (.str "")) lim.current_state
  let pr ← pySliceTo (← pyGetD proposal "Problems Identified" (.str "")) lim.problems
  let im ← pySliceTo (← pyGetD proposal "Impact Analysis" (.str "")) lim.impact
  let tp ← pyGetD proposal "Target Persona" (.str "")
  let et ← pySliceTo (← pyGetD proposal "Existing Tooling" (.str "")) lim.existing_tooling
  let ps ← pyGetD proposal "Proposed System" (.obj [])
  let (fn, pv, ra) ←
    match ps with
    | .obj fields => do
      let fn ← pySliceTo ((getField fields "Functionality").getD (.str "")) lim.functionality
      let pv ← pySliceTo ((getField fields "Problem Solving").getD (.str "")) lim.problem_solving
      let ra ← pySliceTo ((getField fields "Risk Assessment").getD (.str "")) lim.risk_assessment
      pure (fn, pv, ra)
    | _ => pure (JValue.str "", JValue.str "", JValue.str "")
  return [("company", .str companyName), ("proposal_name", pn),
          ("current_state", cs), ("problems", pr), ("impact", im),
          ("target_persona", tp), ("existing_tooling", et),
          ("functionality", fn), ("problem_solving", pv), ("risk_assessment", ra)]

/-- Process a company's proposal list in order, stopping at the first raised
error (the per-company `except` clause) but keeping earlier records. -/
def processProposals (companyName : String) (lim : TextLimits) :
    List JValue → List Record
  | [] => []
  | p :: rest =>
    match processProposal companyName lim p with
    | .error _ => []
    | .ok r => r :: processProposals companyName lim rest

/-- Process one company directory: load outcome, `data.get('proposals', [])`,
iterate.  Any raised error is caught and the company contributes whatever
was accumulated up to that point. -/
def processCompany (lim : TextLimits) (companyName : String)
    (loadResult : Except PyErr JValue) : List Record :=
  match loadResult with
  | .error _ => []
  | .ok data =>
    match pyGetD data "proposals" (.arr []) with
    | .error _ => []
    | .ok props =>
      match pyIterToList props with
      | .error _ => []
      | .ok ps => processProposals companyName lim ps

/-- utils.extract_proposals_from_companies over the discovered companies. -/
def extract_proposals_from_companies (lim : TextLimits)
    (companies : List (String × Except PyErr JValue)) : List Record :=
  companies.flatMap fun c => processCompany lim c.1 c.2

/-! Batching: utils.batch_items. -/

/-- utils.batch_items, the comprehension
`[items[i:i+batch_size] for i in range(0, len(items), batch_size)]`:
`range(0, len, step)` has `ceil(len / step)` elements (the sizes used by the
pipeline are the positive literals 12, 10 and 8; step 0 would raise in
Python and is never exercised, the model returns `[]`). -/
def batch_items (items : List Record) (batch_size : Nat) : List (List Record) :=
  if batch_size = 0 then []
  else
    (List.range ((items.length + batch_size - 1) / batch_size)).map
      fun i => (items.drop (batch_size * i)).take batch_size

/-! The three classification stages of src/analyze.py.  Each stage batches
the records, sends one prompt per batch (an oracle maps batch numbers to the
call_llm outcome: reply text or raised error), extracts JSON from the reply
and merges labels back by the 1-based index declared in each classification
object.  The batch-level `except Exception` catches everything raised while
applying classifications and overwrites the whole batch with stage defaults,
so the stage functions are total. -/

/-- Python `x - 1` on a classification index value (`classif['idx'] - 1`):
ints and floats subtract, bools coerce to 0/1, everything else raises
TypeError before any comparison happens. -/
def idxMinus1 (v : JValue) : Except PyErr JNum :=
  match v with
  | .num (.int i) => .ok (.int (i - 1))
  | .num (.float (.finite q)) => .ok (.float (.finite (q - 1)))
  | .num (.float f) => .ok (.float f)
  | .bool b => .ok (.int ((if b then 1 else 0) - 1))
  | _ => .error .typeError

/-- The guard `0 <= prop_idx < len(batch)`; all comparisons against NaN are
false, so NaN indices are silently skipped like any other out-of-range one. -/
def jnumInRange (n : JNum) (len : Nat) : Bool :=
  match n with
  | .int i => decide (0 ≤ i ∧ i < (len : Int))
  | .float (.finite q) => decide (0 ≤ q ∧ q < (len : ℚ))
  | .float _ => false

/-- Using the checked index to subscript the batch list: a float index
raises TypeError even when its value is in range. -/
def jnumAsListIdx (n : JNum) : Except PyErr Nat :=
  match n with
  | .int i => .ok i.toNat
  | .float _ => .error .typeError

/-- Python `", ".join(xs)` on a list value: every element must be a string. -/
def joinListCommaSpace : List JValue → Except PyErr (List String)
  | [] => .ok []
  | .str s :: rest => do
    let tail ← joinListCommaSpace rest
    return s :: tail
  | _ :: _ => .error .typeError

/-- Python `", ".join(v)` on an arbitrary value: lists join their (string)
elements, strings join their characters, dicts join their keys; everything
else raises TypeError. -/
def pyJoinCommaSpace (v : JValue) : Except PyErr String :=
  match v with
  | .arr xs => do
    let parts ← joinListCommaSpace xs
    return String.intercalate ", " parts
  | .str s => .ok (String.intercalate ", " (s.data.map fun c => String.mk [c]))
  | .obj fields => .ok (String.intercalate ", " (fields.map Prod.fst))
  | _ => .error .typeError

/-- Result of applying one classification object to the batch: the flag is
true when the application raised (the batch list carries any mutations made
before the raise, since records are mutated in place one assignment at a
time). -/
abbrev ApplyResult := Bool × List Record

/-- One iteration of the phase-2 merge loop:
`prop_idx = classif['idx'] - 1; if in range: batch[prop_idx]['business_use_case'] = classif['type']`
(Python evaluates the right-hand side before subscripting the batch). -/
def phase2ApplyOne (batch : List Record) (classif : JValue) : ApplyResult :=
  match pySubscript classif "idx" with
  | .error _ => (true, batch)
  | .ok idxv =>
    match idxMinus1 idxv with
    | .error _ => (true, batch)
    | .ok n =>
      if jnumInRange n batch.length then
        match pySubscript classif "type" with
        | .error _ => (true, batch)
        | .ok tv =>
          match jnumAsListIdx n with
          | .error _ => (true, batch)
          | .ok i => (false, batch.set i (setField (batch.getD i []) "business_use_case" tv))
      else (false, batch)

/-- The tail of the phase-3 merge loop after the knowledge_representation
assignment: input_modalities (joined unconditionally), tool_integration,
human_oversight, architecture_confidence. -/
def phase3ApplyRest (batch : List Record) (i : Nat) (r : Record) (classif : JValue) :
    ApplyResult :=
  let modalities := objGetD classif "input_modalities" (.arr [.str "Unknown"])
  match pyJoinCommaSpace modalities with
  | .error _ => (true, batch.set i r)
  | .ok s =>
    let r := setField r "input_modalities" (.str s)
    let r := setField r "tool_integration" (objGetD classif "tool_integration" (.str "Unknown"))
    let r := setField r "human_oversight" (objGetD classif "human_oversight" (.str "Unknown"))
    let r := setField r "architecture_confidence" (objGetD classif "confidence" (.str "unknown"))
    (false, batch.set i r)

/-- One iteration of the phase-3 merge loop (analyze.py lines 156-176):
index by `classif['proposal_index'] - 1`, then assign the eight architecture
fields with `.get` defaults; knowledge_representation is joined only when it
is a list, input_modalities is joined unconditionally. -/
def phase3ApplyOne (batch : List Record) (classif : JValue) : ApplyResult :=
  match pySubscript classif "proposal_index" with
  | .error _ => (true, batch)
  | .ok idxv =>
    match idxMinus1 idxv with
    | .error _ => (true, batch)
    | .ok n =>
      if jnumInRange n batch.length then
        match jnumAsListIdx n with
        | .error _ => (true, batch)
        | .ok i =>
          let r := batch.getD i []
          let r := setField r "architecture_pattern" (objGetD classif "architecture_pattern" (.str "Unknown"))
          let r := setField r "reasoning_pattern" (objGetD classif "reasoning_pattern" (.str "Unknown"))
          let r := setField r "execution_pattern" (objGetD classif "execution_pattern" (.str "Unknown"))
          let kr := objGetD classif "knowledge_representation" (.str "Unknown")
          match kr with
          | .arr xs =>
            match joinListCommaSpace xs with
            | .error _ => (true, batch.set i r)
            | .ok parts =>
              let r := setField r "knowledge_representation" (.str (String.intercalate ", " parts))
              phase3ApplyRest batch i r classif
          | _ =>
            let r := setField r "knowledge_representation" kr
            phase3ApplyRest batch i r classif
      else (false, batch)

/-- One iteration of the phase-4 merge loop (analyze.py lines 258-278):
eleven complexity fields with `.get` defaults, then rerepresentation_type
joined only when it is a list. -/
def phase4ApplyOne (batch : List Record) (classif : JValue) : ApplyResult :=
  match pySubscript classif "proposal_index" with
  | .error _ => (true, batch)
  | .ok idxv =>
    match idxMinus1 idxv with
    | .error _ => (true, batch)
    | .ok n =>
      if jnumInRange n batch.length then
        match jnumAsListIdx n with
        | .error _ => (true, batch)
        | .ok i =>
          let r := batch.getD i []
          let r := setField r "data_complexity" (objGetD classif "data_complexity" (.str "Unknown"))
          let r := setField r "integration_complexity" (objGetD classif "integration_complexity" (.str "Unknown"))
          let r := setField r "prompt_complexity" (objGetD classif "prompt_complexity" (.str "Unknown"))
          let r := setField r "chain_depth" (objGetD classif "chain_depth" (.str "Unknown"))
          let r := setField r "schema_complexity" (objGetD classif "schema_complexity" (.str "Unknown"))
          let r := setField r "state_management" (objGetD classif "state_management" (.str "Unknown"))
          let r := setField r "error_handling" (objGetD classif "error_handling" (.str "Unknown"))
          let r := setField r "evaluation_complexity" (objGetD classif "evaluation_complexity" (.str "Unknown"))
          let r := setField r "domain_expertise" (objGetD classif "domain_expertise" (.str "Unknown"))
          let r := setField r "latency_requirements" (objGetD classif "latency_requirements" (.str "Unknown"))
          let r := setField r "regulatory_requirements" (objGetD classif "regulatory_requirements" (.str "Unknown"))
          let rerep := objGetD classif "rerepresentation_type" (.str "Unknown")
          match rerep with
          | .arr xs =>
            match joinListCommaSpace xs with
            | .error _ => (true, batch.set i r)
            | .ok parts =>
              let r := setField r "rerepresentation_type" (.str (String.intercalate ", " parts))
              (false, batch.set i r)
          | _ =>
            let r := setField r "rerepresentation_type" rerep
            (false, batch.set i r)
      else (false, batch)

/-- Run the merge loop over the parsed classification list, stopping at the
first raised error but keeping mutations already made. -/
def applyList (applyOne : List Record → JValue → ApplyResult)
    (batch : List Record) : List JValue → ApplyResult
  | [] => (false, batch)
  | c :: cs =>
    match applyOne batch c with
    | (true, b) => (true, b)
    | (false, b) => applyList applyOne b cs

/-- analyze.add_default_architecture_fields. -/
def add_default_architecture_fields (r : Record) : Record :=
  let r := setField r "architecture_pattern" (.str "Unknown")
  let r := setField r "reasoning_pattern" (.str "Unknown")
  let r := setField r "execution_pattern" (.str "Unknown")
  let r := setField r "knowledge_representation" (.str "Unknown")
  let r := setField r "input_modalities" (.str "Unknown")
  let r := setField r "tool_integration" (.str "Unknown")
  let r := setField r "human_oversight" (.str "Unknown")
  setField r "architecture_confidence" (.str "low")

/-- analyze.add_default_implementation_fields. -/
def add_default_implementation_fields (r : Record) : Record :=
  let r := setField r "data_complexity" (.str "Unknown")
  let r := setField r "integration_complexity" (.str "Unknown")
  let r := setField r "prompt_complexity" (.str "Unknown")
  let r := setField r "chain_depth" (.str "Unknown")
  let r := setField r "schema_complexity" (.str "Unknown")
  let r := setField r "state_management" (.str "Unknown")
  let r := setField r "error_handling" (.str "Unknown")
  let r := setField r "evaluation_complexity" (.str "Unknown")
  let r := setField r "domain_expertise" (.str "Unknown")
  let r := setField r "latency_requirements" (.str "Unknown")
  let r := setField r "regulatory_requirements" (.str "Unknown")
  setField r "rerepresentation_type" (.str "Unknown")

/-- The phase-2 sentinel assignment `prop['business_use_case'] = 'Unknown'`. -/
def add_default_business (r : Record) : Record :=
  setField r "business_use_case" (.str "Unknown")

/-- Process one batch inside a stage's try/except: on a raised network call,
an unparseable (or falsy) reply, a non-iterable parse result, or an error
raised while merging, every record of the (possibly partially mutated) batch
receives the stage defaults; otherwise the merged batch is kept. -/
def stageBatch (applyOne : List Record → JValue → ApplyResult)
    (defaults : Record → Record) (batch : List Record)
    (resp : Except ApiRaised String) : List Record :=
  match resp with
  | .error _ => batch.map defaults
  | .ok text =>
    match extract_json_from_response text with
    | none => batch.map defaults
    | some v =>
      if pyTruthy v then
        match pyIterToList v with
        | .error _ => batch.map defaults
        | .ok cs =>
          match applyList applyOne batch cs with
          | (true, b) => b.map defaults
          | (false, b) => b
      else batch.map defaults

/-- The per-batch loop shared by the three stages: each batch is processed
with its own oracle response, and the results are concatenated (batches are
slices sharing the record dicts, so in-place mutation of a batch is
concatenation of the processed batches). -/
def runBatches (f : Nat → List Record → List Record) :
    Nat → List (List Record) → List Record
  | _, [] => []
  | i, b :: bs => f i b ++ runBatches f (i + 1) bs

/-- A whole stage's classification loop: batch, dispatch, merge. -/
def runStage (applyOne : List Record → JValue → ApplyResult)
    (defaults : Record → Record) (batch_size : Nat) (records : List Record)
    (resps : Nat → Except ApiRaised String) : List Record :=
  runBatches (fun i b => stageBatch applyOne defaults b (resps i)) 0
    (batch_items records batch_size)

/-- The backfill at the top of phase 3:
`if 'business_use_case' not in p: p['business_use_case'] = 'Unknown'`. -/
def ensureBusinessKey (r : Record) : Record :=
  match getField r "business_use_case" with
  | some _ => r
  | none => setField r "business_use_case" (.str "Unknown")

/-- analyze.phase3_architecture_classification: backfill the
business_use_case key, then classify in batches of 10. -/
def phase3_architecture_classification (records : List Record)
    (resps : Nat → Except ApiRaised String) : List Record :=
  runStage phase3ApplyOne add_default_architecture_fields 10
    (records.map ensureBusinessKey) resps

/-- analyze.phase4_implementation_classification: classify in batches of 8. -/
def phase4_implementation_classification (records : List Record)
    (resps : Nat → Except ApiRaised String) : List Record :=
  runStage phase4ApplyOne add_default_implementation_fields 8 records resps

/-- Observable outcome of phase 2: the returned record list, the names of
the output files written, and the number of classification batches
dispatched to the API. -/
structure Phase2Out where
  records : List Record
  writes : List String
  dispatched : Nat

/-- analyze.phase2_business_clustering: one discovery call (its raised error
would propagate), early return with the records untouched when the reply has
no extractable JSON or a falsy (e.g. empty) vocabulary, otherwise the batch
loop over batches of 12 followed by the four snapshot/summary writes. -/
def phase2_business_clustering (records : List Record)
    (discovery : Except ApiRaised String)
    (resps : Nat → Except ApiRaised String) : Except ApiRaised Phase2Out :=
  match discovery with
  | .error e => .error e
  | .ok text =>
    match extract_json_from_response text with
    | none => .ok ⟨records, [], 0⟩
    | some v =>
      if pyTruthy v then
        .ok ⟨runStage phase2ApplyOne add_default_business 12 records resps,
             ["proposals_with_business.json", "proposals_with_business.csv",
              "business_clusters_summary.json", "business_clusters_summary.csv"],
             (batch_items records 12).length⟩
      else .ok ⟨records, [], 0⟩

/-! The snapshot-skipping control flow of analyze.main (lines 407-447),
after successful environment validation.  The filesystem is an oracle from
snapshot filename to the loaded record list (`none` for a missing or
unreadable file — both raise in `load_json`, and both are caught the same
way where a `try` exists).  The stage computations themselves are passed as
functions (they are modelled separately with their LLM oracles); `sampler`
stands for `random.sample`.  Phase 5 only writes a summary file and is not
part of the returned record state. -/

/-- The CLI flags of analyze.main that this model covers. -/
structure MainArgs where
  sample : Option Nat
  skip_extract : Bool
  skip_business : Bool
  skip_architecture : Bool
  skip_implementation : Bool

/-- What main leaves behind: the final record list and the warnings printed
by failed snapshot loads. -/
structure MainOut where
  records : List Record
  warnings : List String

/-- A `try: proposals = load_json(...) except: print(warning)` block: on a
missing or unreadable snapshot the in-memory record list is kept and the
warning is printed. -/
def skipLoad (fs : String → Option (List Record)) (fname : String)
    (inMem : List Record) (warning : String) : List Record × List String :=
  match fs fname with
  | some d => (d, [])
  | none => (inMem, [warning])

/-- analyze.main from phase 1 to phase 4: note that the `--skip-extract`
load is the only one not wrapped in try/except, so there a missing snapshot
propagates and aborts the pipeline. -/
def mainModel (args : MainArgs) (fs : String → Option (List Record))
    (extracted : List Record) (sampler : List Record → Nat → List Record)
    (p2 p3 p4 : List Record → List Record) : Except PyErr MainOut :=
  let step1 : Except PyErr (List Record) :=
    if args.skip_extract then
      match fs "raw_proposals.json" with
      | some d => .ok d
      | none => .error .fileNotFound
    else .ok extracted
  match step1 with
  | .error e => .error e
  | .ok props0 =>
    let props1 :=
      match args.sample with
      | none => props0
      | some n => if n ≠ 0 ∧ n < props0.length then sampler props0 n else props0
    let s2 :=
      if args.skip_business then
        skipLoad fs "proposals_with_business.json" props1
          "Warning: Could not load existing business classifications"
      else (p2 props1, [])
    let s3 :=
      if args.skip_architecture then
        skipLoad fs "proposals_complete.json" s2.1
          "Warning: Could not load existing architecture classifications"
      else (p3 s2.1, [])
    let s4 :=
      if args.skip_implementation then
        skipLoad fs "proposals_with_implementation.json" s3.1
          "Warning: Could not load existing implementation classifications"
      else (p4 s3.1, [])
    .ok ⟨s4.1, s2.2 ++ s3.2 ++ s4.2⟩

/-! Definitions used only to state the theorems below. -/

/-- A batch response on which a stage falls back to defaults before any
merging: the network call raised, or the extractor found no data in the
reply. -/
def stageRespBad (resp : Except ApiRaised String) : Prop :=
  match resp with
  | .error _ => True
  | .ok t => extract_json_from_response t = none

/-- Record transformation discipline: values outside the given key set are
untouched, and no key present before is ever removed. -/
def keepsOutside (ks : List String) (r r' : Record) : Prop :=
  (∀ k, k ∉ ks → getField r' k = getField r k) ∧
  (∀ k, (getField r k).isSome → (getField r' k).isSome)

/-- The eight label keys the architecture stage attaches. -/
def archKeys : List String :=
  ["architecture_pattern", "reasoning_pattern", "execution_pattern",
   "knowledge_representation", "input_modalities", "tool_integration",
   "human_oversight", "architecture_confidence"]

/-- The twelve label keys the implementation stage attaches. -/
def implKeys : List String :=
  ["data_complexity", "integration_complexity", "prompt_complexity",
   "chain_depth", "schema_complexity", "state_management", "error_handling",
   "evaluation_complexity", "domain_expertise", "latency_requirements",
   "regulatory_requirements", "rerepresentation_type"]

/-- A field value count_values treats as multi-valued: a string containing
the separator. -/
def isMultiValued (v : JValue) : Bool :=
  match v with
  | .str s => hasSep s.data
  | _ => false

/-- The API outcomes call_llm does not retry: any status other than 500, and
any non-status API error. -/
def nonRetryable : ApiOutcome → Prop
  | .statusErr c => c ≠ 500
  | .apiErr => True
  | .ok _ => False

/-- The error call_llm re-raises for a failing outcome. -/
def raisedOf : ApiOutcome → ApiRaised
  | .statusErr c => .statusErr c
  | .apiErr => .apiErr
  | .ok _ => .apiErr

/-- A sliced value together with the bound the slice enforces. -/
def sliceBounded (v : JValue) (n : Nat) : Prop :=
  (∃ s, v = JValue.str s ∧ s.length ≤ n) ∨ (∃ xs, v = JValue.arr xs ∧ xs.length ≤ n)

/-- Modelled from the claim's wording (for comparison with the code): find
the first opening delimiter of either kind in the response, then the last
closing delimiter of the same kind, and parse that substring. -/
def claimWordedExtractor (response : String) : Option JValue :=
  let s := response.data
  match firstIdxWhere (fun c => c = '[' || c = lbrace) s with
  | none => none
  | some i =>
    let closer := if s.getD i ' ' = '[' then ']' else rbrace
    match lastIdxWhere (· = closer) s with
    | none => none
    | some j => if j < i then none else jsonParse (pySlice s i (j + 1))

/-! Helper lemmas about records. -/

theorem getField_setField_self (r : Record) (k : String) (v : JValue) :
    getField (setField r k v) k = some v := by
  induction r with
  | nil => simp [setField, getField]
  | cons p rest ih =>
    obtain ⟨k', v'⟩ := p
    by_cases h : k' = k
    · simp [setField, h, getField]
    · simp [setField, h, getField, ih]

theorem getField_setField_ne (r : Record) (k k' : String) (v : JValue)
    (h : k' ≠ k) : getField (setField r k v) k' = getField r k' := by
  have hkk : k ≠ k' := Ne.symm h
  induction r with
  | nil => simp [setField, getField, hkk]
  | cons p rest ih =>
    obtain ⟨k0, v0⟩ := p
    by_cases h0 : k0 = k
    · subst h0
      simp [setField, getField, hkk]
    · simp [setField, h0, getField, ih]

theorem isSome_getField_setField (r : Record) (k k' : String) (v : JValue)
    (h : (getField r k').isSome) :
    (getField (setField r k v) k').isSome := by
  by_cases hk : k' = k
  · subst hk
    simp [getField_setField_self]
  · rwa [getField_setField_ne r k k' v hk]

theorem keepsOutside_refl (ks : List String) (r : Record) : keepsOutside ks r r :=
  ⟨fun _ _ => rfl, fun _ h => h⟩

theorem keepsOutside_trans {ks : List String} {r1 r2 r3 : Record}
    (h12 : keepsOutside ks r1 r2) (h23 : keepsOutside ks r2 r3) :
    keepsOutside ks r1 r3 := by
  refine ⟨fun k hk => ?_, fun k hk => h23.2 k (h12.2 k hk)⟩
  rw [h23.1 k hk, h12.1 k hk]

theorem keepsOutside_mono (ks ks' : List String) {r r' : Record}
    (hsub : ∀ k, k ∈ ks → k ∈ ks') (h : keepsOutside ks r r') :
    keepsOutside ks' r r' := by
  refine ⟨fun k hk => h.1 k (fun hmem => hk (hsub k hmem)), h.2⟩

theorem keepsOutside_setField {ks : List String} {r r' : Record} {k : String}
    (hk : k ∈ ks) (h : keepsOutside ks r r') (v : JValue) :
    keepsOutside ks r (setField r' k v) := by
  refine ⟨fun k' hk' => ?_, fun k' hk' => isSome_getField_setField _ _ _ _ (h.2 k' hk')⟩
  have hne : k' ≠ k := fun he => hk' (he ▸ hk)
  rw [getField_setField_ne _ _ _ _ hne, h.1 k' hk']

/-! Helper lemmas about Forall₂ and batch plumbing. -/

theorem forall2_refl {P : Record → Record → Prop} (hP : ∀ r, P r r)
    (l : List Record) : List.Forall₂ P l l := by
  induction l with
  | nil => exact List.Forall₂.nil
  | cons a as ih => exact List.Forall₂.cons (hP a) ih

theorem forall2_trans (P : Record → Record → Prop)
    (hP : ∀ a b c, P a b → P b c → P a c) :
    ∀ {l m n : List Record}, List.Forall₂ P l m → List.Forall₂ P m n →
      List.Forall₂ P l n := by
  intro l m n hlm
  induction hlm generalizing n with
  | nil =>
    intro hmn
    cases hmn
    exact List.Forall₂.nil
  | cons hab htail ih =>
    intro hmn
    cases hmn with
    | cons hbc htail2 => exact List.Forall₂.cons (hP _ _ _ hab hbc) (ih htail2)

theorem forall2_compose (P Q R : Record → Record → Prop)
    (h : ∀ a b c, P a b → Q b c → R a c) :
    ∀ {l m n : List Record}, List.Forall₂ P l m → List.Forall₂ Q m n →
      List.Forall₂ R l n := by
  intro l m n hlm
  induction hlm generalizing n with
  | nil =>
    intro hmn
    cases hmn
    exact List.Forall₂.nil
  | cons hab htail ih =>
    intro hmn
    cases hmn with
    | cons hbc htail2 => exact List.Forall₂.cons (h _ _ _ hab hbc) (ih htail2)

theorem forall2_map_right (P : Record → Record → Prop) (f : Record → Record)
    (hP : ∀ r, P r (f r)) (l : List Record) : List.Forall₂ P l (l.map f) := by
  induction l with
  | nil => exact List.Forall₂.nil
  | cons a as ih => exact List.Forall₂.cons (hP a) ih

theorem forall2_set {P : Record → Record → Prop} (hrefl : ∀ r, P r r) :
    ∀ (l : List Record) (i : Nat) (x : Record), P (l.getD i []) x →
      List.Forall₂ P l (l.set i x) := by
  intro l
  induction l with
  | nil => intro i x _; exact List.Forall₂.nil
  | cons a as ih =>
    intro i x hx
    cases i with
    | zero =>
      simp only [List.set]
      exact List.Forall₂.cons (by simpa [List.getD] using hx) (forall2_refl hrefl as)
    | succ j =>
      simp only [List.set]
      exact List.Forall₂.cons (hrefl a) (ih j x (by simpa [List.getD] using hx))

theorem forall2_append {P : Record → Record → Prop} :
    ∀ {l1 l2 m1 m2 : List Record}, List.Forall₂ P l1 m1 → List.Forall₂ P l2 m2 →
      List.Forall₂ P (l1 ++ l2) (m1 ++ m2) := by
  intro l1 l2 m1 m2 h1 h2
  induction h1 with
  | nil => exact h2
  | cons hab _ ih => exact List.Forall₂.cons hab ih

/-! Helper lemmas about batch_items and runBatches. -/

theorem lt_ceil_iff (len n i : Nat) (hn : 0 < n) :
    i < (len + n - 1) / n ↔ n * i < len := by
  have h1 : (i < (len + n - 1) / n) ↔ (i + 1 ≤ (len + n - 1) / n) := Iff.rfl
  rw [h1, Nat.le_div_iff_mul_le hn, Nat.add_mul, Nat.one_mul, Nat.mul_comm i n]
  generalize n * i = a
  omega

theorem join_chunks (n : Nat) (hn : 0 < n) :
    ∀ (k : Nat) (l : List Record), (l.length + n - 1) / n = k →
      ((List.range k).map fun i => (l.drop (n * i)).take n).flatten = l := by
  intro k
  induction k with
  | zero =>
    intro l hk
    have hlen : l.length = 0 := by
      by_contra hc
      have h1 : 1 ≤ (l.length + n - 1) / n := by
        rw [Nat.le_div_iff_mul_le hn]
        omega
      omega
    simp [List.eq_nil_of_length_eq_zero hlen]
  | succ k ih =>
    intro l hk
    rw [List.range_succ_eq_map, List.map_cons, List.map_map, List.flatten_cons]
    by_cases hle : l.length ≤ n
    · have h2 : ¬ 2 ≤ (l.length + n - 1) / n := by
        rw [Nat.le_div_iff_mul_le hn]
        omega
      have hk0 : k = 0 := by omega
      subst hk0
      simp [List.take_of_length_le hle]
    · have htail :
          ((List.range k).map ((fun i => (l.drop (n * i)).take n) ∘ Nat.succ)).flatten
            = l.drop n := by
        have heq :
            ((List.range k).map ((fun i => (l.drop (n * i)).take n) ∘ Nat.succ))
              = (List.range k).map fun i => ((l.drop n).drop (n * i)).take n := by
          apply List.map_congr_left
          intro i _
          simp only [Function.comp_apply]
          rw [List.drop_drop]
          congr 2
          simp only [Nat.mul_succ]
          ring
        rw [heq]
        apply ih
        rw [List.length_drop]
        have h3 : l.length - n + n - 1 = (l.length + n - 1) - n := by omega
        rw [h3]
        rw [Nat.div_eq_sub_div hn (by omega)] at hk
        omega
      rw [htail]
      simp [List.take_append_drop]

theorem join_batch_items (l : List Record) (n : Nat) (hn : 0 < n) :
    (batch_items l n).flatten = l := by
  unfold batch_items
  rw [if_neg (Nat.pos_iff_ne_zero.1 hn)]
  exact join_chunks n hn _ l rfl

theorem batch_items_getElem (l : List Record) (n : Nat) (hn : 0 < n) (i : Nat) :
    (batch_items l n)[i]? =
      if i < (l.length + n - 1) / n then some ((l.drop (n * i)).take n)
      else none := by
  unfold batch_items
  rw [if_neg (Nat.pos_iff_ne_zero.1 hn)]
  rw [List.getElem?_map]
  by_cases h : i < (l.length + n - 1) / n
  · rw [List.getElem?_range h]
    simp [h]
  · rw [List.getElem?_eq_none (by simpa using Nat.le_of_not_lt h)]
    simp [h]

theorem sum_map_range_const (g : Nat → Nat) (n : Nat) :
    ∀ j, (∀ i, i < j → g i = n) → ((List.range j).map g).sum = n * j := by
  intro j
  induction j with
  | zero => simp
  | succ j ih =>
    intro hg
    rw [List.range_succ, List.map_append, List.sum_append]
    rw [ih fun i hi => hg i (by omega)]
    simp [hg j (by omega), Nat.mul_succ]

theorem batch_items_take_sum (l : List Record) (n j : Nat) (hn : 0 < n)
    (b : List Record) (hb : (batch_items l n)[j]? = some b) :
    (((batch_items l n).take j).map List.length).sum = n * j := by
  have hceil : j < (l.length + n - 1) / n := by
    by_contra hc
    rw [batch_items_getElem l n hn j, if_neg hc] at hb
    cases hb
  have hj : n * j < l.length := (lt_ceil_iff _ _ _ hn).1 hceil
  unfold batch_items
  rw [if_neg (Nat.pos_iff_ne_zero.1 hn)]
  rw [← List.map_take, List.take_range, Nat.min_eq_left (Nat.le_of_lt hceil),
      List.map_map]
  apply sum_map_range_const
  intro i hi
  simp only [Function.comp_apply]
  rw [List.length_take, List.length_drop]
  have h1 : n * i + n ≤ n * j := by
    have h2 : n * (i + 1) ≤ n * j := Nat.mul_le_mul_left n (by omega)
    simpa [Nat.mul_succ] using h2
  have h2 : n * i + n ≤ l.length := le_trans h1 (Nat.le_of_lt hj)
  generalize n * i = a at h2 ⊢
  omega

theorem runBatches_length (f : Nat → List Record → List Record)
    (hf : ∀ i b, (f i b).length = b.length) :
    ∀ (bs : List (List Record)) (i0 : Nat),
      (runBatches f i0 bs).length = bs.flatten.length := by
  intro bs
  induction bs with
  | nil => intro i0; rfl
  | cons b rest ih =>
    intro i0
    simp only [runBatches, List.flatten_cons, List.length_append, hf, ih]

theorem drop_append_length (A Y : List Record) (m : Nat) :
    (A ++ Y).drop (A.length + m) = Y.drop m := by
  induction A with
  | nil => simp
  | cons a A ih => simp [Nat.succ_add, ih]

theorem runBatches_slice (f : Nat → List Record → List Record)
    (hf : ∀ i b, (f i b).length = b.length) :
    ∀ (j : Nat) (bs : List (List Record)) (i0 : Nat) (b : List Record),
      bs[j]? = some b →
      ((runBatches f i0 bs).drop (((bs.take j).map List.length).sum)).take b.length
        = f (i0 + j) b := by
  intro j
  induction j with
  | zero =>
    intro bs i0 b hb
    cases bs with
    | nil => simp at hb
    | cons c rest =>
      simp only [List.getElem?_cons_zero, Option.some.injEq] at hb
      subst hb
      simp only [List.take_zero, List.map_nil, List.sum_nil, List.drop_zero,
        runBatches, Nat.add_zero]
      exact List.take_left' (hf i0 c)
  | succ j ih =>
    intro bs i0 b hb
    cases bs with
    | nil => simp at hb
    | cons c rest =>
      simp only [List.getElem?_cons_succ] at hb
      simp only [List.take_succ_cons, List.map_cons, List.sum_cons, runBatches]
      have h1 : (f i0 c ++ runBatches f (i0 + 1) rest).drop
            (c.length + ((rest.take j).map List.length).sum)
          = (runBatches f (i0 + 1) rest).drop (((rest.take j).map List.length).sum) := by
        rw [← hf i0 c]
        exact drop_append_length _ _ _
      rw [h1]
      have h2 := ih rest (i0 + 1) b hb
      rw [h2]
      congr 1
      omega

theorem forall2_runBatches {P : Record → Record → Prop}
    (f : Nat → List Record → List Record)
    (hf : ∀ i b, List.Forall₂ P b (f i b)) :
    ∀ (bs : List (List Record)) (i0 : Nat),
      List.Forall₂ P bs.flatten (runBatches f i0 bs) := by
  intro bs
  induction bs with
  | nil => intro i0; exact List.Forall₂.nil
  | cons b rest ih =>
    intro i0
    simp only [runBatches, List.flatten_cons]
    exact forall2_append (hf i0 b) (ih (i0 + 1))

/-! Length preservation through the stage batch processing. -/

theorem phase2ApplyOne_length (batch : List Record) (c : JValue) :
    ((phase2ApplyOne batch c).2).length = batch.length := by
  unfold phase2ApplyOne
  cases h1 : pySubscript c "idx" with
  | error e => rfl
  | ok idxv =>
    cases h2 : idxMinus1 idxv with
    | error e => simp [h2]
    | ok n =>
      by_cases h3 : jnumInRange n batch.length
      · cases h4 : pySubscript c "type" with
        | error e => simp [h2, h3, h4]
        | ok tv =>
          cases h5 : jnumAsListIdx n with
          | error e => simp [h2, h3, h4, h5]
          | ok i => simp [h2, h3, h4, h5, List.length_set]
      · simp [h2, h3]

theorem phase3ApplyRest_length (batch : List Record) (i : Nat) (r : Record)
    (c : JValue) : ((phase3ApplyRest batch i r c).2).length = batch.length := by
  unfold phase3ApplyRest
  cases h : pyJoinCommaSpace (objGetD c "input_modalities" (JValue.arr [JValue.str "Unknown"])) with
  | error e => simp [h, List.length_set]
  | ok s => simp [h, List.length_set]

theorem phase3ApplyOne_length (batch : List Record) (c : JValue) :
    ((phase3ApplyOne batch c).2).length = batch.length := by
  unfold phase3ApplyOne
  cases h1 : pySubscript c "proposal_index" with
  | error e => rfl
  | ok idxv =>
    cases h2 : idxMinus1 idxv with
    | error e => simp [h2]
    | ok n =>
      by_cases h3 : jnumInRange n batch.length
      · cases h5 : jnumAsListIdx n with
        | error e => simp [h2, h3, h5]
        | ok i =>
          simp only [h2, h3, if_true, h5]
          cases hkr : objGetD c "knowledge_representation" (JValue.str "Unknown") with
          | arr xs =>
            cases hj : joinListCommaSpace xs with
            | error e => simp [hkr, hj, List.length_set]
            | ok parts => simp [hkr, hj, phase3ApplyRest_length, List.length_set]
          | null => simp [hkr, phase3ApplyRest_length, List.length_set]
          | bool b => simp [hkr, phase3ApplyRest_length, List.length_set]
          | num m => simp [hkr, phase3ApplyRest_length, List.length_set]
          | str s => simp [hkr, phase3ApplyRest_length, List.length_set]
          | obj fields => simp [hkr, phase3ApplyRest_length, List.length_set]
      · simp [h2, h3]

theorem phase4ApplyOne_length (batch : List Record) (c : JValue) :
    ((phase4ApplyOne batch c).2).length = batch.length := by
  unfold phase4ApplyOne
  cases h1 : pySubscript c "proposal_index" with
  | error e => rfl
  | ok idxv =>
    cases h2 : idxMinus1 idxv with
    | error e => simp [h2]
    | ok n =>
      by_cases h3 : jnumInRange n batch.length
      · cases h5 : jnumAsListIdx n with
        | error e => simp [h2, h3, h5]
        | ok i =>
          simp only [h2, h3, if_true, h5]
          cases hrr : objGetD c "rerepresentation_type" (JValue.str "Unknown") with
          | arr xs =>
            cases hj : joinListCommaSpace xs with
            | error e => simp [hrr, hj, List.length_set]
            | ok parts => simp [hrr, hj, List.length_set]
          | null => simp [hrr, List.length_set]
          | bool b => simp [hrr, List.length_set]
          | num m => simp [hrr, List.length_set]
          | str s => simp [hrr, List.length_set]
          | obj fields => simp [hrr, List.length_set]
      · simp [h2, h3]

theorem applyList_length (applyOne : List Record → JValue → ApplyResult)
    (hlen : ∀ b c, ((applyOne b c).2).length = b.length) :
    ∀ (cs : List JValue) (batch : List Record),
      ((applyList applyOne batch cs).2).length = batch.length := by
  intro cs
  induction cs with
  | nil => intro batch; rfl
  | cons c cs ih =>
    intro batch
    unfold applyList
    have h := hlen batch c
    cases happ : applyOne batch c with
    | mk flag b =>
      rw [happ] at h
      cases flag
      · simpa [ih b] using h
      · simpa using h

theorem stageBatch_length (applyOne : List Record → JValue → ApplyResult)
    (defaults : Record → Record)
    (hlen : ∀ b c, ((applyOne b c).2).length = b.length)
    (batch : List Record) (resp : Except ApiRaised String) :
    (stageBatch applyOne defaults batch resp).length = batch.length := by
  unfold stageBatch
  cases resp with
  | error e => simp
  | ok text =>
    cases hex : extract_json_from_response text with
    | none => simp [hex]
    | some v =>
      by_cases hv : pyTruthy v = true
      · cases hit : pyIterToList v with
        | error e => simp [hex, hv, hit]
        | ok cs =>
          have h := applyList_length applyOne hlen cs batch
          cases happ : applyList applyOne batch cs with
          | mk flag b =>
            rw [happ] at h
            cases flag
            · simpa [hex, hv, hit, happ] using h
            · simpa [hex, hv, hit, happ] using h
      · simp [hex, hv]

/-- A stage falls back to per-record defaults on a bad batch response. -/
theorem stageBatch_bad (applyOne : List Record → JValue → ApplyResult)
    (defaults : Record → Record) (batch : List Record)
    (resp : Except ApiRaised String) (hbad : stageRespBad resp) :
    stageBatch applyOne defaults batch resp = batch.map defaults := by
  cases resp with
  | error e => rfl
  | ok t =>
    have h : extract_json_from_response t = none := hbad
    simp [stageBatch, h]

theorem runStage_length (applyOne : List Record → JValue → ApplyResult)
    (defaults : Record → Record)
    (hlen : ∀ b c, ((applyOne b c).2).length = b.length)
    (n : Nat) (hn : 0 < n) (records : List Record)
    (resps : Nat → Except ApiRaised String) :
    (runStage applyOne defaults n records resps).length = records.length := by
  unfold runStage
  rw [runBatches_length _ fun i b => stageBatch_length applyOne defaults hlen b (resps i)]
  rw [join_batch_items records n hn]

theorem runStage_bad_slice (applyOne : List Record → JValue → ApplyResult)
    (defaults : Record → Record)
    (hlen : ∀ b c, ((applyOne b c).2).length = b.length)
    (n : Nat) (hn : 0 < n) (records : List Record)
    (resps : Nat → Except ApiRaised String) (i : Nat) (b : List Record)
    (hb : (batch_items records n)[i]? = some b) (hbad : stageRespBad (resps i)) :
    ((runStage applyOne defaults n records resps).drop (n * i)).take b.length
      = b.map defaults := by
  have hslice := runBatches_slice
    (fun j c => stageBatch applyOne defaults c (resps j))
    (fun j c => stageBatch_length applyOne defaults hlen c (resps j))
    i (batch_items records n) 0 b hb
  rw [batch_items_take_sum records n i hn b hb] at hslice
  unfold runStage
  rw [hslice, Nat.zero_add]
  exact stageBatch_bad applyOne defaults b (resps i) hbad

/-! Claim C2. -/

/-- C2: call_llm retries exactly the HTTP-500 class with waits doubling from
one second: two 500s then a success return the success after waits [1, 2]; a
non-retryable first outcome raises immediately with no waits; all-500 runs
exhaust the three attempts after the same two waits and re-raise. -/
theorem c2_call_llm_retry (outcomes : Nat → ApiOutcome) (t : String)
    (e : ApiOutcome) :
    (outcomes 0 = .statusErr 500 → outcomes 1 = .statusErr 500 →
      outcomes 2 = .ok t → call_llm outcomes 3 = (.ok (some t), [1, 2])) ∧
    (outcomes 0 = e → nonRetryable e →
      call_llm outcomes 3 = (.error (raisedOf e), [])) ∧
    (outcomes 0 = .statusErr 500 → outcomes 1 = .statusErr 500 →
      outcomes 2 = .statusErr 500 →
      call_llm outcomes 3 = (.error (.statusErr 500), [1, 2])) := by
  refine ⟨fun h0 h1 h2 => ?_, fun h0 he => ?_, fun h0 h1 h2 => ?_⟩
  · simp [call_llm, callLlmGo, h0, h1, h2]
  · cases e with
    | ok s => exact absurd he (by simp [nonRetryable])
    | statusErr c =>
      have hc : c ≠ 500 := he
      simp [call_llm, callLlmGo, h0, hc, raisedOf]
    | apiErr => simp [call_llm, callLlmGo, h0, raisedOf]
  · simp [call_llm, callLlmGo, h0, h1, h2]

/-- Witness for C2 at concrete outcomes. -/
theorem c2_call_llm_retry_witness :
    call_llm (fun a => if a ≤ 1 then .statusErr 500 else .ok "done") 3 =
      (.ok (some "done"), [1, 2]) ∧
    call_llm (fun _ => .statusErr 429) 3 = (.error (.statusErr 429), []) := by
  constructor
  · exact (c2_call_llm_retry (fun a => if a ≤ 1 then .statusErr 500 else .ok "done")
      "done" .apiErr).1 (by simp) (by simp) (by simp)
  · exact (c2_call_llm_retry (fun _ => .statusErr 429) "" (.statusErr 429)).2.1 rfl
      (by simp [nonRetryable])

/-! Key-preservation of the stage transformations. -/

theorem forall2_keeps_set (ks : List String) (l : List Record) (i : Nat)
    (r' : Record) (h : keepsOutside ks (l.getD i []) r') :
    List.Forall₂ (keepsOutside ks) l (l.set i r') :=
  forall2_set (keepsOutside_refl ks) l i r' h

theorem keeps_add_default_business (r : Record) :
    keepsOutside ["business_use_case"] r (add_default_business r) :=
  keepsOutside_setField (by simp) (keepsOutside_refl _ r) _

theorem keeps_add_default_architecture (r : Record) :
    keepsOutside archKeys r (add_default_architecture_fields r) := by
  unfold add_default_architecture_fields
  refine keepsOutside_setField (by simp [archKeys]) ?_ _
  refine keepsOutside_setField (by simp [archKeys]) ?_ _
  refine keepsOutside_setField (by simp [archKeys]) ?_ _
  refine keepsOutside_setField (by simp [archKeys]) ?_ _
  refine keepsOutside_setField (by simp [archKeys]) ?_ _
  refine keepsOutside_setField (by simp [archKeys]) ?_ _
  refine keepsOutside_setField (by simp [archKeys]) ?_ _
  exact keepsOutside_setField (by simp [archKeys]) (keepsOutside_refl _ r) _

theorem keeps_add_default_implementation (r : Record) :
    keepsOutside implKeys r (add_default_implementation_fields r) := by
  unfold add_default_implementation_fields
  refine keepsOutside_setField (by simp [implKeys]) ?_ _
  refine keepsOutside_setField (by simp [implKeys]) ?_ _
  refine keepsOutside_setField (by simp [implKeys]) ?_ _
  refine keepsOutside_setField (by simp [implKeys]) ?_ _
  refine keepsOutside_setField (by simp [implKeys]) ?_ _
  refine keepsOutside_setField (by simp [implKeys]) ?_ _
  refine keepsOutside_setField (by simp [implKeys]) ?_ _
  refine keepsOutside_setField (by simp [implKeys]) ?_ _
  refine keepsOutside_setField (by simp [implKeys]) ?_ _
  refine keepsOutside_setField (by simp [implKeys]) ?_ _
  refine keepsOutside_setField (by simp [implKeys]) ?_ _
  exact keepsOutside_setField (by simp [implKeys]) (keepsOutside_refl _ r) _

theorem phase2ApplyOne_keeps (batch : List Record) (c : JValue) :
    List.Forall₂ (keepsOutside ["business_use_case"]) batch
      ((phase2ApplyOne batch c).2) := by
  unfold phase2ApplyOne
  cases h1 : pySubscript c "idx" with
  | error e => exact forall2_refl (keepsOutside_refl _) batch
  | ok idxv =>
    cases h2 : idxMinus1 idxv with
    | error e =>
      simp only [h2]
      exact forall2_refl (keepsOutside_refl _) batch
    | ok n =>
      by_cases h3 : jnumInRange n batch.length
      · cases h4 : pySubscript c "type" with
        | error e =>
          simp only [h2, h3, if_true, h4]
          exact forall2_refl (keepsOutside_refl _) batch
        | ok tv =>
          cases h5 : jnumAsListIdx n with
          | error e =>
            simp only [h2, h3, if_true, h4, h5]
            exact forall2_refl (keepsOutside_refl _) batch
          | ok i =>
            simp only [h2, h3, if_true, h4, h5]
            exact forall2_keeps_set _ batch i _
              (keepsOutside_setField (by simp) (keepsOutside_refl _ _) _)
      · simp only [h2, h3, if_false]
        exact forall2_refl (keepsOutside_refl _) batch

theorem phase3ApplyRest_keeps (batch : List Record) (i : Nat) (r : Record)
    (c : JValue) (hr : keepsOutside archKeys (batch.getD i []) r) :
    List.Forall₂ (keepsOutside archKeys) batch ((phase3ApplyRest batch i r c).2) := by
  unfold phase3ApplyRest
  cases h : pyJoinCommaSpace (objGetD c "input_modalities" (JValue.arr [JValue.str "Unknown"])) with
  | error e =>
    simp only [h]
    exact forall2_keeps_set _ batch i r hr
  | ok s =>
    simp only [h]
    refine forall2_keeps_set _ batch i _ ?_
    refine keepsOutside_setField (by simp [archKeys]) ?_ _
    refine keepsOutside_setField (by simp [archKeys]) ?_ _
    refine keepsOutside_setField (by simp [archKeys]) ?_ _
    exact keepsOutside_setField (by simp [archKeys]) hr _

theorem phase3ApplyOne_keeps (batch : List Record) (c : JValue) :
    List.Forall₂ (keepsOutside archKeys) batch ((phase3ApplyOne batch c).2) := by
  unfold phase3ApplyOne
  cases h1 : pySubscript c "proposal_index" with
  | error e => exact forall2_refl (keepsOutside_refl _) batch
  | ok idxv =>
    cases h2 : idxMinus1 idxv with
    | error e =>
      simp only [h2]
      exact forall2_refl (keepsOutside_refl _) batch
    | ok n =>
      by_cases h3 : jnumInRange n batch.length
      · cases h5 : jnumAsListIdx n with
        | error e =>
          simp only [h2, h3, if_true, h5]
          exact forall2_refl (keepsOutside_refl _) batch
        | ok i =>
          simp only [h2, h3, if_true, h5]
          have hbase : keepsOutside archKeys (batch.getD i [])
              (setField (setField (setField (batch.getD i [])
                  "architecture_pattern" (objGetD c "architecture_pattern" (JValue.str "Unknown")))
                  "reasoning_pattern" (objGetD c "reasoning_pattern" (JValue.str "Unknown")))
                  "execution_pattern" (objGetD c "execution_pattern" (JValue.str "Unknown"))) := by
            refine keepsOutside_setField (by simp [archKeys]) ?_ _
            refine keepsOutside_setField (by simp [archKeys]) ?_ _
            exact keepsOutside_setField (by simp [archKeys]) (keepsOutside_refl _ _) _
          cases hkr : objGetD c "knowledge_representation" (JValue.str "Unknown") with
          | arr xs =>
            cases hj : joinListCommaSpace xs with
            | error e =>
              simp only [hj]
              exact forall2_keeps_set _ batch i _ hbase
            | ok parts =>
              simp only [hj]
              exact phase3ApplyRest_keeps batch i _ c
                (keepsOutside_setField (by simp [archKeys]) hbase _)
          | null =>
            exact phase3ApplyRest_keeps batch i _ c
              (keepsOutside_setField (by simp [archKeys]) hbase _)
          | bool b =>
            exact phase3ApplyRest_keeps batch i _ c
              (keepsOutside_setField (by simp [archKeys]) hbase _)
          | num m =>
            exact phase3ApplyRest_keeps batch i _ c
              (keepsOutside_setField (by simp [archKeys]) hbase _)
          | str s =>
            exact phase3ApplyRest_keeps batch i _ c
              (keepsOutside_setField (by simp [archKeys]) hbase _)
          | obj fields =>
            exact phase3ApplyRest_keeps batch i _ c
              (keepsOutside_setField (by simp [archKeys]) hbase _)
      · simp only [h2, h3, if_false]
        exact forall2_refl (keepsOutside_refl _) batch

theorem phase4ApplyOne_keeps (batch : List Record) (c : JValue) :
    List.Forall₂ (keepsOutside implKeys) batch ((phase4ApplyOne batch c).2) := by
  unfold phase4ApplyOne
  cases h1 : pySubscript c "proposal_index" with
  | error e => exact forall2_refl (keepsOutside_refl _) batch
  | ok idxv =>
    cases h2 : idxMinus1 idxv with
    | error e =>
      simp only [h2]
      exact forall2_refl (keepsOutside_refl _) batch
    | ok n =>
      by_cases h3 : jnumInRange n batch.length
      · cases h5 : jnumAsListIdx n with
        | error e =>
          simp only [h2, h3, if_true, h5]
          exact forall2_refl (keepsOutside_refl _) batch
        | ok i =>
          simp only [h2, h3, if_true, h5]
          have hbase : keepsOutside implKeys (batch.getD i [])
              (setField (setField (setField (setField (setField (setField
               (setField (setField (setField (setField (setField (batch.getD i [])
                "data_complexity" (objGetD c "data_complexity" (JValue.str "Unknown")))
                "integration_complexity" (objGetD c "integration_complexity" (JValue.str "Unknown")))
                "prompt_complexity" (objGetD c "prompt_complexity" (JValue.str "Unknown")))
                "chain_depth" (objGetD c "chain_depth" (JValue.str "Unknown")))
                "schema_complexity" (objGetD c "schema_complexity" (JValue.str "Unknown")))
                "state_management" (objGetD c "state_management" (JValue.str "Unknown")))
                "error_handling" (objGetD c "error_handling" (JValue.str "Unknown")))
                "evaluation_complexity" (objGetD c "evaluation_complexity" (JValue.str "Unknown")))
                "domain_expertise" (objGetD c "domain_expertise" (JValue.str "Unknown")))
                "latency_requirements" (objGetD c "latency_requirements" (JValue.str "Unknown")))
                "regulatory_requirements" (objGetD c "regulatory_requirements" (JValue.str "Unknown"))) := by
            refine keepsOutside_setField (by simp [implKeys]) ?_ _
            refine keepsOutside_setField (by simp [implKeys]) ?_ _
            refine keepsOutside_setField (by simp [implKeys]) ?_ _
            refine keepsOutside_setField (by simp [implKeys]) ?_ _
            refine keepsOutside_setField (by simp [implKeys]) ?_ _
            refine keepsOutside_setField (by simp [implKeys]) ?_ _
            refine keepsOutside_setField (by simp [implKeys]) ?_ _
            refine keepsOutside_setField (by simp [implKeys]) ?_ _
            refine keepsOutside_setField (by simp [implKeys]) ?_ _
            refine keepsOutside_setField (by simp [implKeys]) ?_ _
            exact keepsOutside_setField (by simp [implKeys]) (keepsOutside_refl _ _) _
          cases hrr : objGetD c "rerepresentation_type" (JValue.str "Unknown") with
          | arr xs =>
            cases hj : joinListCommaSpace xs with
            | error e =>
              simp only [hj]
              exact forall2_keeps_set _ batch i _ hbase
            | ok parts =>
              simp only [hj]
              exact forall2_keeps_set _ batch i _
                (keepsOutside_setField (by simp [implKeys]) hbase _)
          | null =>
            exact forall2_keeps_set _ batch i _
              (keepsOutside_setField (by simp [implKeys]) hbase _)
          | bool b =>
            exact forall2_keeps_set _ batch i _
              (keepsOutside_setField (by simp [implKeys]) hbase _)
          | num m =>
            exact forall2_keeps_set _ batch i _
              (keepsOutside_setField (by simp [implKeys]) hbase _)
          | str s =>
            exact forall2_keeps_set _ batch i _
              (keepsOutside_setField (by simp [implKeys]) hbase _)
          | obj fields =>
            exact forall2_keeps_set _ batch i _
              (keepsOutside_setField (by simp [implKeys]) hbase _)
      · simp only [h2, h3, if_false]
        exact forall2_refl (keepsOutside_refl _) batch

theorem applyList_keeps (ks : List String)
    (applyOne : List Record → JValue → ApplyResult)
    (hone : ∀ b c, List.Forall₂ (keepsOutside ks) b ((applyOne b c).2)) :
    ∀ (cs : List JValue) (batch : List Record),
      List.Forall₂ (keepsOutside ks) batch ((applyList applyOne batch cs).2) := by
  intro cs
  induction cs with
  | nil => intro batch; exact forall2_refl (keepsOutside_refl _) batch
  | cons c cs ih =>
    intro batch
    unfold applyList
    have h := hone batch c
    cases happ : applyOne batch c with
    | mk flag b =>
      rw [happ] at h
      cases flag
      · simp only [happ]
        exact forall2_trans (keepsOutside ks)
          (fun a b' c' hab hbc => keepsOutside_trans hab hbc) h (ih b)
      · simp only [happ]
        exact h

theorem stageBatch_keeps (ks : List String)
    (applyOne : List Record → JValue → ApplyResult) (defaults : Record → Record)
    (hone : ∀ b c, List.Forall₂ (keepsOutside ks) b ((applyOne b c).2))
    (hdef : ∀ r, keepsOutside ks r (defaults r))
    (batch : List Record) (resp : Except ApiRaised String) :
    List.Forall₂ (keepsOutside ks) batch (stageBatch applyOne defaults batch resp) := by
  unfold stageBatch
  cases resp with
  | error e => exact forall2_map_right (keepsOutside ks) defaults hdef batch
  | ok text =>
    cases hex : extract_json_from_response text with
    | none =>
      simp only [hex]
      exact forall2_map_right (keepsOutside ks) defaults hdef batch
    | some v =>
      by_cases hv : pyTruthy v = true
      · cases hit : pyIterToList v with
        | error e =>
          simp only [hex, hv, if_true, hit]
          exact forall2_map_right (keepsOutside ks) defaults hdef batch
        | ok cs =>
          simp only [hex, hv, if_true, hit]
          have h := applyList_keeps ks applyOne hone cs batch
          cases happ : applyList applyOne batch cs with
          | mk flag b =>
            rw [happ] at h
            cases flag
            · simp only [happ]
              exact h
            · simp only [happ]
              exact forall2_trans (keepsOutside ks)
                (fun a b' c' hab hbc => keepsOutside_trans hab hbc) h
                (forall2_map_right (keepsOutside ks) defaults hdef b)
      · simp only [hex]
        rw [if_neg hv]
        exact forall2_map_right (keepsOutside ks) defaults hdef batch

theorem runStage_keeps (ks : List String)
    (applyOne : List Record → JValue → ApplyResult) (defaults : Record → Record)
    (hone : ∀ b c, List.Forall₂ (keepsOutside ks) b ((applyOne b c).2))
    (hdef : ∀ r, keepsOutside ks r (defaults r))
    (n : Nat) (hn : 0 < n) (records : List Record)
    (resps : Nat → Except ApiRaised String) :
    List.Forall₂ (keepsOutside ks) records
      (runStage applyOne defaults n records resps) := by
  unfold runStage
  have h := forall2_runBatches
    (fun i b => stageBatch applyOne defaults b (resps i))
    (fun i b => stageBatch_keeps ks applyOne defaults hone hdef b (resps i))
    (batch_items records n) 0
  rwa [join_batch_items records n hn] at h

/-! Inversion of the extractor's record construction. -/

theorem pySliceTo_bounded {v w : JValue} {n : Nat} (h : pySliceTo v n = .ok w) :
    sliceBounded w n := by
  cases v with
  | str s =>
    simp [pySliceTo] at h
    subst h
    left
    exact ⟨_, rfl, by simp⟩
  | arr xs =>
    simp [pySliceTo] at h
    subst h
    right
    exact ⟨_, rfl, by simp⟩
  | null => simp [pySliceTo] at h
  | bool b => simp [pySliceTo] at h
  | num m => simp [pySliceTo] at h
  | obj fields => simp [pySliceTo] at h

theorem processProposal_fields {name : String} {lim : TextLimits} {p : JValue}
    {r : Record} (h : processProposal name lim p = .ok r) :
    getField r "company" = some (.str name) ∧
    (∃ v, getField r "proposal_name" = some v) ∧
    (∃ v, getField r "current_state" = some v ∧ sliceBounded v lim.current_state) ∧
    (∃ v, getField r "problems" = some v ∧ sliceBounded v lim.problems) ∧
    (∃ v, getField r "impact" = some v ∧ sliceBounded v lim.impact) ∧
    (∃ v, getField r "target_persona" = some v) ∧
    (∃ v, getField r "existing_tooling" = some v ∧ sliceBounded v lim.existing_tooling) ∧
    (∃ v, getField r "functionality" = some v ∧ sliceBounded v lim.functionality) ∧
    (∃ v, getField r "problem_solving" = some v ∧ sliceBounded v lim.problem_solving) ∧
    (∃ v, getField r "risk_assessment" = some v ∧ sliceBounded v lim.risk_assessment) := by
  unfold processProposal at h
  simp only [bind, Except.bind, pure, Except.pure] at h
  repeat' split at h
  all_goals try exact Except.noConfusion h
  all_goals injection h with h
  all_goals subst h
  all_goals
    refine ⟨rfl, ⟨_, rfl⟩, ?_, ?_, ?_, ⟨_, rfl⟩, ?_, ?_, ?_, ?_⟩ <;>
      first
        | exact ⟨_, rfl, pySliceTo_bounded (by assumption)⟩
        | exact ⟨_, rfl, Or.inl ⟨"", rfl, by simp⟩⟩

theorem mem_processProposals {name : String} {lim : TextLimits} {r : Record} :
    ∀ {ps : List JValue}, r ∈ processProposals name lim ps →
      ∃ p, processProposal name lim p = .ok r := by
  intro ps
  induction ps with
  | nil => intro h; simp [processProposals] at h
  | cons p rest ih =>
    intro h
    unfold processProposals at h
    cases hp : processProposal name lim p with
    | error e =>
      rw [hp] at h
      simp at h
    | ok rec =>
      rw [hp] at h
      rcases List.mem_cons.1 h with h1 | h2
      · exact ⟨p, h1 ▸ hp⟩
      · exact ih h2

theorem mem_processCompany {lim : TextLimits} {name : String}
    {load : Except PyErr JValue} {r : Record}
    (h : r ∈ processCompany lim name load) :
    ∃ p, processProposal name lim p = .ok r := by
  unfold processCompany at h
  cases load with
  | error e => simp at h
  | ok data =>
    cases hg : pyGetD data "proposals" (JValue.arr []) with
    | error e =>
      simp only [hg] at h
      simp at h
    | ok props =>
      simp only [hg] at h
      cases hi : pyIterToList props with
      | error e =>
        simp only [hi] at h
        simp at h
      | ok ps =>
        simp only [hi] at h
        exact mem_processProposals h

theorem mem_extract {lim : TextLimits}
    {companies : List (String × Except PyErr JValue)} {r : Record}
    (h : r ∈ extract_proposals_from_companies lim companies) :
    ∃ c ∈ companies, ∃ p, processProposal c.1 lim p = .ok r := by
  unfold extract_proposals_from_companies at h
  rcases List.mem_flatMap.1 h with ⟨c, hc, hr⟩
  exact ⟨c, hc, mem_processCompany hr⟩

/-! Claim C6 (corrected). -/

/-- C6 counterexample: the claim says the target-persona narrative field is
length-capped, but the extractor stores `Target Persona` without any slice.
Under the default limits (all ≤ 2000) a 2001-character persona is stored in
full. -/
theorem c6_counterexample :
    getField ((extract_proposals_from_companies defaultTextLimits
        [("acme", Except.ok (JValue.obj [("proposals", JValue.arr
          [JValue.obj [("Target Persona",
            JValue.str (String.mk (List.replicate 2001 'x')))]])]))]).getD 0 [])
        "target_persona"
      = some (JValue.str (String.mk (List.replicate 2001 'x'))) ∧
    (String.mk (List.replicate 2001 'x')).length = 2001 ∧
    defaultTextLimits.current_state < 2001 ∧ defaultTextLimits.problems < 2001 ∧
    defaultTextLimits.impact < 2001 ∧ defaultTextLimits.existing_tooling < 2001 ∧
    defaultTextLimits.functionality < 2001 ∧ defaultTextLimits.problem_solving < 2001 ∧
    defaultTextLimits.risk_assessment < 2001 := by
  refine ⟨rfl, ?_, by decide, by decide, by decide, by decide, by decide,
    by decide, by decide⟩
  show (List.replicate 2001 'x').length = 2001
  exact List.length_replicate 2001 'x'

/-- C6 amended: every extracted record carries the company directory name
(non-empty whenever all directory names are, which the filesystem
guarantees), and the seven narrative fields with configured budgets are
length-capped; target_persona is stored verbatim, without a cap. -/
theorem c6_extraction_caps (lim : TextLimits)
    (companies : List (String × Except PyErr JValue))
    (hnames : ∀ c ∈ companies, c.1 ≠ "") (r : Record)
    (hr : r ∈ extract_proposals_from_companies lim companies) :
    (∃ cname, getField r "company" = some (.str cname) ∧ cname ≠ "") ∧
    (∃ v, getField r "current_state" = some v ∧ sliceBounded v lim.current_state) ∧
    (∃ v, getField r "problems" = some v ∧ sliceBounded v lim.problems) ∧
    (∃ v, getField r "impact" = some v ∧ sliceBounded v lim.impact) ∧
    (∃ v, getField r "existing_tooling" = some v ∧ sliceBounded v lim.existing_tooling) ∧
    (∃ v, getField r "functionality" = some v ∧ sliceBounded v lim.functionality) ∧
    (∃ v, getField r "problem_solving" = some v ∧ sliceBounded v lim.problem_solving) ∧
    (∃ v, getField r "risk_assessment" = some v ∧ sliceBounded v lim.risk_assessment) := by
  rcases mem_extract hr with ⟨c, hc, p, hp⟩
  rcases processProposal_fields hp with
    ⟨hco, _, hcs, hpr, him, _, het, hfn, hpv, hra⟩
  exact ⟨⟨c.1, hco, hnames c hc⟩, hcs, hpr, him, het, hfn, hpv, hra⟩

/-- Witness for C6 amended at a one-company, one-proposal input. -/
theorem c6_extraction_caps_witness :
    (∃ cname, getField ((extract_proposals_from_companies defaultTextLimits
        [("acme", Except.ok (JValue.obj [("proposals", JValue.arr
          [JValue.obj [("Proposal Name", JValue.str "P1")]])]))]).getD 0 [])
        "company" = some (.str cname) ∧ cname ≠ "") := by
  have h := c6_extraction_caps defaultTextLimits
    [("acme", Except.ok (JValue.obj [("proposals", JValue.arr
      [JValue.obj [("Proposal Name", JValue.str "P1")]])]))]
    (by intro c hc; simp at hc; subst hc; simp)
    ((extract_proposals_from_companies defaultTextLimits
      [("acme", Except.ok (JValue.obj [("proposals", JValue.arr
        [JValue.obj [("Proposal Name", JValue.str "P1")]])]))]).getD 0 [])
    (by simp [extract_proposals_from_companies, processCompany, pyGetD,
      getField, pyIterToList, processProposals, processProposal, pySliceTo,
      bind, Except.bind, pure, Except.pure])
  exact h.1

/-! Claim C8 (corrected). -/

theorem keeps_ensureBusinessKey (r : Record) :
    keepsOutside ["business_use_case"] r (ensureBusinessKey r) := by
  unfold ensureBusinessKey
  cases h : getField r "business_use_case" with
  | some v => exact keepsOutside_refl _ r
  | none => exact keepsOutside_setField (by simp) (keepsOutside_refl _ r) _

theorem ensureBusinessKey_of_isSome {r : Record}
    (h : (getField r "business_use_case").isSome) : ensureBusinessKey r = r := by
  unfold ensureBusinessKey
  cases hg : getField r "business_use_case" with
  | some v => rfl
  | none => rw [hg] at h; simp at h

/-- C8 counterexample: the claim says a stage only adds its own label keys,
but the architecture stage backfills the business stage's key: a record
without business_use_case gains that key (which is not among the eight
architecture label keys) when phase 3 runs. -/
theorem c8_counterexample :
    getField [("company", JValue.str "A")] "business_use_case" = none ∧
    getField ((phase3_architecture_classification [[("company", JValue.str "A")]]
        (fun _ => .error .apiErr)).getD 0 []) "business_use_case"
      = some (JValue.str "Unknown") ∧
    "business_use_case" ∉ archKeys := by
  refine ⟨rfl, rfl, by decide⟩

/-- C8 amended: every extracted record carries company and proposal_name;
every classification stage preserves the values of all keys outside its
label-key set and never removes a key — with the one amendment that the
architecture stage's key set additionally contains business_use_case, which
it backfills with "Unknown" when absent (records that already carry
business_use_case are modified only at the eight architecture keys). -/
theorem c8_stages_preserve_records (lim : TextLimits)
    (companies : List (String × Except PyErr JValue))
    (records : List Record) (dtext : Except ApiRaised String)
    (resps : Nat → Except ApiRaised String) :
    (∀ r ∈ extract_proposals_from_companies lim companies,
      (∃ v, getField r "company" = some v) ∧
      (∃ v, getField r "proposal_name" = some v)) ∧
    (∀ out, phase2_business_clustering records dtext resps = .ok out →
      List.Forall₂ (keepsOutside ["business_use_case"]) records out.records) ∧
    List.Forall₂ (fun r r' => keepsOutside ("business_use_case" :: archKeys) r r' ∧
        ((getField r "business_use_case").isSome → keepsOutside archKeys r r'))
      records (phase3_architecture_classification records resps) ∧
    List.Forall₂ (keepsOutside implKeys) records
      (phase4_implementation_classification records resps) := by
  refine ⟨?_, ?_, ?_, ?_⟩
  · intro r hr
    rcases mem_extract hr with ⟨c, hc, p, hp⟩
    rcases processProposal_fields hp with ⟨hco, hpn, _⟩
    exact ⟨⟨_, hco⟩, hpn⟩
  · intro out hrun
    cases dtext with
    | error e => exact Except.noConfusion hrun
    | ok text =>
      unfold phase2_business_clustering at hrun
      cases hex : extract_json_from_response text with
      | none =>
        simp only [hex] at hrun
        cases hrun
        exact forall2_refl (keepsOutside_refl _) records
      | some v =>
        simp only [hex] at hrun
        by_cases hv : pyTruthy v = true
        · rw [if_pos hv] at hrun
          cases hrun
          exact runStage_keeps _ phase2ApplyOne add_default_business
            phase2ApplyOne_keeps keeps_add_default_business 12 (by omega)
            records resps
        · rw [if_neg hv] at hrun
          cases hrun
          exact forall2_refl (keepsOutside_refl _) records
  · unfold phase3_architecture_classification
    have h1 : List.Forall₂ (fun a b => b = ensureBusinessKey a) records
        (records.map ensureBusinessKey) :=
      forall2_map_right (fun a b => b = ensureBusinessKey a) ensureBusinessKey
        (fun r => rfl) records
    have h2 := runStage_keeps archKeys phase3ApplyOne
      add_default_architecture_fields phase3ApplyOne_keeps
      keeps_add_default_architecture 10 (by omega)
      (records.map ensureBusinessKey) resps
    refine forall2_compose (fun a b => b = ensureBusinessKey a)
      (keepsOutside archKeys) _ ?_ h1 h2
    intro a b c hab hbc
    subst hab
    constructor
    · refine keepsOutside_trans
        (keepsOutside_mono ["business_use_case"] _ ?_ (keeps_ensureBusinessKey a))
        (keepsOutside_mono archKeys _ ?_ hbc)
      · intro k hk
        simp at hk
        simp [hk]
      · intro k hk
        simp [hk]
    · intro hsome
      rw [ensureBusinessKey_of_isSome hsome] at hbc
      exact hbc
  · exact runStage_keeps implKeys phase4ApplyOne add_default_implementation_fields
      phase4ApplyOne_keeps keeps_add_default_implementation 8 (by omega)
      records resps

/-- Witness for C8 at a concrete one-company extraction and an empty record
list through the stages. -/
theorem c8_stages_preserve_records_witness :
    (∃ v, getField ((extract_proposals_from_companies defaultTextLimits
        [("acme", Except.ok (JValue.obj [("proposals", JValue.arr
          [JValue.obj [("Proposal Name", JValue.str "P1")]])]))]).getD 0 [])
        "company" = some v) := by
  have h := (c8_stages_preserve_records defaultTextLimits
    [("acme", Except.ok (JValue.obj [("proposals", JValue.arr
      [JValue.obj [("Proposal Name", JValue.str "P1")]])]))]
    [] (.error .apiErr) (fun _ => .error .apiErr)).1
    ((extract_proposals_from_companies defaultTextLimits
      [("acme", Except.ok (JValue.obj [("proposals", JValue.arr
        [JValue.obj [("Proposal Name", JValue.str "P1")]])]))]).getD 0 [])
    (by simp [extract_proposals_from_companies, processCompany, pyGetD,
      getField, pyIterToList, processProposals, processProposal, pySliceTo,
      bind, Except.bind, pure, Except.pure])
  exact h.1

theorem getD_set_self (l : List Record) (i : Nat) (x : Record)
    (h : i < l.length) : (l.set i x).getD i [] = x := by
  induction l generalizing i with
  | nil => simp at h
  | cons a as ih =>
    cases i with
    | zero => rfl
    | succ j =>
      simp only [List.set]
      exact ih j (by simpa using h)

theorem getElem?_set_ne' (l : List Record) (i j : Nat) (x : Record)
    (h : j ≠ i) : (l.set i x)[j]? = l[j]? := by
  induction l generalizing i j with
  | nil => simp
  | cons a as ih =>
    cases i with
    | zero =>
      cases j with
      | zero => exact absurd rfl h
      | succ j2 => simp [List.set]
    | succ i2 =>
      cases j with
      | zero => simp [List.set]
      | succ j2 => simpa [List.set] using ih i2 j2 (fun he => h (by omega))

/-! Claim C4 (corrected). -/

/-- C4 counterexample: in the business stage a successfully parsed
classification list with a second object lacking the 'type' label does not
leave the first record's label in place — the KeyError aborts the merge and
the whole batch is overwritten with "Unknown", so the record labeled "X" by
the first object ends up with "Unknown" instead. -/
theorem c4_counterexample :
    (phase2_business_clustering
        [[("company", JValue.str "A")], [("company", JValue.str "B")]]
        (.ok "[\"T1\"]")
        (fun _ => .ok "[\x7b\"idx\": 1, \"type\": \"X\"\x7d, \x7b\"idx\": 2\x7d]")).map
      (fun out => out.records.map fun r => getField r "business_use_case")
      = .ok [some (JValue.str "Unknown"), some (JValue.str "Unknown")] ∧
    JValue.str "Unknown" ≠ JValue.str "X" := by
  constructor
  · rfl
  · intro h
    injection h with h2
    exact absurd h2 (by decide)

/-- C4 amended: classification objects are mapped back by the 1-based index
field and out-of-range indices are silently ignored in all three stages; in
the architecture and implementation stages a label absent from an object
falls back to its stage default while the other records of the batch are
untouched; in the business stage, however, the label is read with a raising
subscript, so an object with an in-range index and no 'type' key raises
(wiping the whole batch with defaults at the batch level), while an object
carrying 'type' stores it at its record. -/
theorem c4_index_mapping (batch : List Record) (fields : List (String × JValue))
    (i : Int) (tv : JValue) :
    ((getField fields "idx" = some (.num (.int i)) →
      (i < 1 ∨ (batch.length : Int) < i) →
      phase2ApplyOne batch (.obj fields) = (false, batch)) ∧
     (getField fields "proposal_index" = some (.num (.int i)) →
      (i < 1 ∨ (batch.length : Int) < i) →
      phase3ApplyOne batch (.obj fields) = (false, batch) ∧
        phase4ApplyOne batch (.obj fields) = (false, batch))) ∧
    (getField fields "idx" = some (.num (.int i)) →
      1 ≤ i → i ≤ (batch.length : Int) →
      (getField fields "type" = none →
        phase2ApplyOne batch (.obj fields) = (true, batch)) ∧
      (getField fields "type" = some tv →
        phase2ApplyOne batch (.obj fields) =
          (false, batch.set (i - 1).toNat
            (setField (batch.getD (i - 1).toNat []) "business_use_case" tv)))) ∧
    (getField fields "proposal_index" = some (.num (.int i)) →
      1 ≤ i → i ≤ (batch.length : Int) →
      (getField fields "architecture_pattern" = none →
       getField fields "knowledge_representation" = none →
       getField fields "input_modalities" = none →
        (phase3ApplyOne batch (.obj fields)).1 = false ∧
        getField (((phase3ApplyOne batch (.obj fields)).2).getD (i - 1).toNat [])
            "architecture_pattern" = some (.str "Unknown") ∧
        ∀ j, j ≠ (i - 1).toNat →
          ((phase3ApplyOne batch (.obj fields)).2)[j]? = batch[j]?) ∧
      (getField fields "data_complexity" = none →
       getField fields "rerepresentation_type" = none →
        (phase4ApplyOne batch (.obj fields)).1 = false ∧
        getField (((phase4ApplyOne batch (.obj fields)).2).getD (i - 1).toNat [])
            "data_complexity" = some (.str "Unknown") ∧
        ∀ j, j ≠ (i - 1).toNat →
          ((phase4ApplyOne batch (.obj fields)).2)[j]? = batch[j]?)) := by
  have hrange : ∀ hlo : 1 ≤ i, ∀ hhi : i ≤ (batch.length : Int),
      jnumInRange (.int (i - 1)) batch.length = true := by
    intro hlo hhi
    simp only [jnumInRange, decide_eq_true_eq]
    omega
  have hout : ∀ hci : i < 1 ∨ (batch.length : Int) < i,
      jnumInRange (.int (i - 1)) batch.length = false := by
    intro hci
    simp only [jnumInRange, decide_eq_false_iff_not]
    omega
  refine ⟨⟨?_, ?_⟩, ?_, ?_⟩
  · intro hidx hci
    unfold phase2ApplyOne
    simp [pySubscript, hidx, idxMinus1, hout hci]
  · intro hidx hci
    constructor
    · unfold phase3ApplyOne
      simp [pySubscript, hidx, idxMinus1, hout hci]
    · unfold phase4ApplyOne
      simp [pySubscript, hidx, idxMinus1, hout hci]
  · intro hidx hlo hhi
    constructor
    · intro htype
      unfold phase2ApplyOne
      simp [pySubscript, hidx, idxMinus1, hrange hlo hhi, htype]
    · intro htype
      unfold phase2ApplyOne
      simp [pySubscript, hidx, idxMinus1, hrange hlo hhi, htype, jnumAsListIdx]
  · intro hidx hlo hhi
    have hidxlt : (i - 1).toNat < batch.length := by omega
    constructor
    · intro hap hkr him
      have hres : phase3ApplyOne batch (.obj fields) =
          (false, batch.set (i - 1).toNat
            (setField (setField (setField (setField (setField (setField
              (setField (setField (batch.getD (i - 1).toNat [])
              "architecture_pattern" (.str "Unknown"))
              "reasoning_pattern" (objGetD (.obj fields) "reasoning_pattern" (.str "Unknown")))
              "execution_pattern" (objGetD (.obj fields) "execution_pattern" (.str "Unknown")))
              "knowledge_representation" (.str "Unknown"))
              "input_modalities" (.str (String.intercalate ", " ["Unknown"])))
              "tool_integration" (objGetD (.obj fields) "tool_integration" (.str "Unknown")))
              "human_oversight" (objGetD (.obj fields) "human_oversight" (.str "Unknown")))
              "architecture_confidence" (objGetD (.obj fields) "confidence" (.str "unknown")))) := by
        unfold phase3ApplyOne phase3ApplyRest
        simp [pySubscript, hidx, idxMinus1, hrange hlo hhi, jnumAsListIdx,
          objGetD, hap, hkr, him, pyJoinCommaSpace, joinListCommaSpace,
          bind, Except.bind, pure, Except.pure]
      refine ⟨by rw [hres], ?_, ?_⟩
      · rw [hres]
        simp only
        rw [getD_set_self batch _ _ hidxlt]
        rw [getField_setField_ne _ _ _ _ (by decide),
            getField_setField_ne _ _ _ _ (by decide),
            getField_setField_ne _ _ _ _ (by decide),
            getField_setField_ne _ _ _ _ (by decide),
            getField_setField_ne _ _ _ _ (by decide),
            getField_setField_ne _ _ _ _ (by decide),
            getField_setField_ne _ _ _ _ (by decide),
            getField_setField_self]
      · intro j hj
        rw [hres]
        exact getElem?_set_ne' batch _ j _ hj
    · intro hdc hrr
      have hres : phase4ApplyOne batch (.obj fields) =
          (false, batch.set (i - 1).toNat
            (setField (setField (setField (setField (setField (setField
             (setField (setField (setField (setField (setField (setField
              (batch.getD (i - 1).toNat [])
              "data_complexity" (.str "Unknown"))
              "integration_complexity" (objGetD (.obj fields) "integration_complexity" (.str "Unknown")))
              "prompt_complexity" (objGetD (.obj fields) "prompt_complexity" (.str "Unknown")))
              "chain_depth" (objGetD (.obj fields) "chain_depth" (.str "Unknown")))
              "schema_complexity" (objGetD (.obj fields) "schema_complexity" (.str "Unknown")))
              "state_management" (objGetD (.obj fields) "state_management" (.str "Unknown")))
              "error_handling" (objGetD (.obj fields) "error_handling" (.str "Unknown")))
              "evaluation_complexity" (objGetD (.obj fields) "evaluation_complexity" (.str "Unknown")))
              "domain_expertise" (objGetD (.obj fields) "domain_expertise" (.str "Unknown")))
              "latency_requirements" (objGetD (.obj fields) "latency_requirements" (.str "Unknown")))
              "regulatory_requirements" (objGetD (.obj fields) "regulatory_requirements" (.str "Unknown")))
              "rerepresentation_type" (.str "Unknown"))) := by
        unfold phase4ApplyOne
        simp [pySubscript, hidx, idxMinus1, hrange hlo hhi, jnumAsListIdx,
          objGetD, hdc, hrr]
      refine ⟨by rw [hres], ?_, ?_⟩
      · rw [hres]
        simp only
        rw [getD_set_self batch _ _ hidxlt]
        rw [getField_setField_ne _ _ _ _ (by decide),
            getField_setField_ne _ _ _ _ (by decide),
            getField_setField_ne _ _ _ _ (by decide),
            getField_setField_ne _ _ _ _ (by decide),
            getField_setField_ne _ _ _ _ (by decide),
            getField_setField_ne _ _ _ _ (by decide),
            getField_setField_ne _ _ _ _ (by decide),
            getField_setField_ne _ _ _ _ (by decide),
            getField_setField_ne _ _ _ _ (by decide),
            getField_setField_ne _ _ _ _ (by decide),
            getField_setField_ne _ _ _ _ (by decide),
            getField_setField_self]
      · intro j hj
        rw [hres]
        exact getElem?_set_ne' batch _ j _ hj

/-- Witness for C4 at a concrete batch: an out-of-range index is ignored and
an in-range object stores its 'type'. -/
theorem c4_index_mapping_witness :
    phase2ApplyOne [[("company", JValue.str "A")]]
        (.obj [("idx", JValue.num (.int 5)), ("type", JValue.str "X")])
      = (false, [[("company", JValue.str "A")]]) ∧
    phase2ApplyOne [[("company", JValue.str "A")]]
        (.obj [("idx", JValue.num (.int 1)), ("type", JValue.str "X")])
      = (false, [[("company", JValue.str "A"), ("business_use_case", JValue.str "X")]]) := by
  constructor
  · exact (c4_index_mapping [[("company", JValue.str "A")]]
      [("idx", JValue.num (.int 5)), ("type", JValue.str "X")] 5
      (JValue.str "X")).1.1 (by rfl) (by right; decide)
  · have h := ((c4_index_mapping [[("company", JValue.str "A")]]
      [("idx", JValue.num (.int 1)), ("type", JValue.str "X")] 1
      (JValue.str "X")).2.1 (by rfl) (by decide) (by decide)).2 (by rfl)
    simpa [setField, getField, List.getD] using h

/-! Claim C9 (corrected). -/

/-- C9 counterexample: the claim says a single-string input_modalities value
is stored unchanged, but the stage joins it unconditionally, so the string
"Text" is stored as the join of its characters, "T, e, x, t". -/
theorem c9_counterexample :
    getField (((phase3ApplyOne [[("company", JValue.str "A")]]
        (.obj [("proposal_index", JValue.num (.int 1)),
               ("input_modalities", JValue.str "Text")])).2).getD 0 [])
      "input_modalities" = some (JValue.str "T, e, x, t") ∧
    JValue.str "T, e, x, t" ≠ JValue.str "Text" := by
  refine ⟨rfl, ?_⟩
  intro h
  injection h with h2
  exact absurd h2 (by decide)

/-- C9 amended: in the architecture stage, knowledge_representation is
normalized as the claim says — an array of strings is joined with ", " and a
single string is stored unchanged — but input_modalities is passed to the
join unconditionally: an array of strings is joined, while a single string
is joined character-by-character rather than stored unchanged. -/
theorem c9_architecture_normalization (batch : List Record)
    (fields : List (String × JValue)) (i : Int) (xs : List JValue)
    (parts : List String) (s : String)
    (hidx : getField fields "proposal_index" = some (.num (.int i)))
    (hlo : 1 ≤ i) (hhi : i ≤ (batch.length : Int)) :
    ((getField fields "knowledge_representation" = some (.arr xs) →
      joinListCommaSpace xs = .ok parts →
      getField fields "input_modalities" = none →
      getField (((phase3ApplyOne batch (.obj fields)).2).getD (i - 1).toNat [])
        "knowledge_representation" = some (.str (String.intercalate ", " parts))) ∧
     (getField fields "knowledge_representation" = some (.str s) →
      getField fields "input_modalities" = none →
      getField (((phase3ApplyOne batch (.obj fields)).2).getD (i - 1).toNat [])
        "knowledge_representation" = some (.str s))) ∧
    ((getField fields "knowledge_representation" = none →
      getField fields "input_modalities" = some (.arr xs) →
      joinListCommaSpace xs = .ok parts →
      getField (((phase3ApplyOne batch (.obj fields)).2).getD (i - 1).toNat [])
        "input_modalities" = some (.str (String.intercalate ", " parts))) ∧
     (getField fields "knowledge_representation" = none →
      getField fields "input_modalities" = some (.str s) →
      getField (((phase3ApplyOne batch (.obj fields)).2).getD (i - 1).toNat [])
        "input_modalities"
        = some (.str (String.intercalate ", " (s.data.map fun c => String.mk [c]))))) := by
  have hrange : jnumInRange (.int (i - 1)) batch.length = true := by
    simp only [jnumInRange, decide_eq_true_eq]
    omega
  have hidxlt : (i - 1).toNat < batch.length := by omega
  refine ⟨⟨?_, ?_⟩, ?_, ?_⟩
  · intro hkr hj him
    have hres : phase3ApplyOne batch (.obj fields) =
        (false, batch.set (i - 1).toNat
          (setField (setField (setField (setField (setField (setField
            (setField (setField (batch.getD (i - 1).toNat [])
            "architecture_pattern" (objGetD (.obj fields) "architecture_pattern" (.str "Unknown")))
            "reasoning_pattern" (objGetD (.obj fields) "reasoning_pattern" (.str "Unknown")))
            "execution_pattern" (objGetD (.obj fields) "execution_pattern" (.str "Unknown")))
            "knowledge_representation" (.str (String.intercalate ", " parts)))
            "input_modalities" (.str (String.intercalate ", " ["Unknown"])))
            "tool_integration" (objGetD (.obj fields) "tool_integration" (.str "Unknown")))
            "human_oversight" (objGetD (.obj fields) "human_oversight" (.str "Unknown")))
            "architecture_confidence" (objGetD (.obj fields) "confidence" (.str "unknown")))) := by
      unfold phase3ApplyOne phase3ApplyRest
      simp [pySubscript, hidx, idxMinus1, hrange, jnumAsListIdx, objGetD,
        hkr, hj, him, pyJoinCommaSpace, joinListCommaSpace,
        bind, Except.bind, pure, Except.pure]
    rw [hres]
    simp only
    rw [getD_set_self batch _ _ hidxlt]
    rw [getField_setField_ne _ _ _ _ (by decide),
        getField_setField_ne _ _ _ _ (by decide),
        getField_setField_ne _ _ _ _ (by decide),
        getField_setField_ne _ _ _ _ (by decide),
        getField_setField_self]
  · intro hkr him
    have hres : phase3ApplyOne batch (.obj fields) =
        (false, batch.set (i - 1).toNat
          (setField (setField (setField (setField (setField (setField
            (setField (setField (batch.getD (i - 1).toNat [])
            "architecture_pattern" (objGetD (.obj fields) "architecture_pattern" (.str "Unknown")))
            "reasoning_pattern" (objGetD (.obj fields) "reasoning_pattern" (.str "Unknown")))
            "execution_pattern" (objGetD (.obj fields) "execution_pattern" (.str "Unknown")))
            "knowledge_representation" (.str s))
            "input_modalities" (.str (String.intercalate ", " ["Unknown"])))
            "tool_integration" (objGetD (.obj fields) "tool_integration" (.str "Unknown")))
            "human_oversight" (objGetD (.obj fields) "human_oversight" (.str "Unknown")))
            "architecture_confidence" (objGetD (.obj fields) "confidence" (.str "unknown")))) := by
      unfold phase3ApplyOne phase3ApplyRest
      simp [pySubscript, hidx, idxMinus1, hrange, jnumAsListIdx, objGetD,
        hkr, him, pyJoinCommaSpace, joinListCommaSpace,
        bind, Except.bind, pure, Except.pure]
    rw [hres]
    simp only
    rw [getD_set_self batch _ _ hidxlt]
    rw [getField_setField_ne _ _ _ _ (by decide),
        getField_setField_ne _ _ _ _ (by decide),
        getField_setField_ne _ _ _ _ (by decide),
        getField_setField_ne _ _ _ _ (by decide),
        getField_setField_self]
  · intro hkr him hj
    have hres : phase3ApplyOne batch (.obj fields) =
        (false, batch.set (i - 1).toNat
          (setField (setField (setField (setField (setField (setField
            (setField (setField (batch.getD (i - 1).toNat [])
            "architecture_pattern" (objGetD (.obj fields) "architecture_pattern" (.str "Unknown")))
            "reasoning_pattern" (objGetD (.obj fields) "reasoning_pattern" (.str "Unknown")))
            "execution_pattern" (objGetD (.obj fields) "execution_pattern" (.str "Unknown")))
            "knowledge_representation" (.str "Unknown"))
            "input_modalities" (.str (String.intercalate ", " parts)))
            "tool_integration" (objGetD (.obj fields) "tool_integration" (.str "Unknown")))
            "human_oversight" (objGetD (.obj fields) "human_oversight" (.str "Unknown")))
            "architecture_confidence" (objGetD (.obj fields) "confidence" (.str "unknown")))) := by
      unfold phase3ApplyOne phase3ApplyRest
      simp [pySubscript, hidx, idxMinus1, hrange, jnumAsListIdx, objGetD,
        hkr, him, hj, pyJoinCommaSpace,
        bind, Except.bind, pure, Except.pure]
    rw [hres]
    simp only
    rw [getD_set_self batch _ _ hidxlt]
    rw [getField_setField_ne _ _ _ _ (by decide),
        getField_setField_ne _ _ _ _ (by decide),
        getField_setField_ne _ _ _ _ (by decide),
        getField_setField_self]
  · intro hkr him
    have hres : phase3ApplyOne batch (.obj fields) =
        (false, batch.set (i - 1).toNat
          (setField (setField (setField (setField (setField (setField
            (setField (setField (batch.getD (i - 1).toNat [])
            "architecture_pattern" (objGetD (.obj fields) "architecture_pattern" (.str "Unknown")))
            "reasoning_pattern" (objGetD (.obj fields) "reasoning_pattern" (.str "Unknown")))
            "execution_pattern" (objGetD (.obj fields) "execution_pattern" (.str "Unknown")))
            "knowledge_representation" (.str "Unknown"))
            "input_modalities"
              (.str (String.intercalate ", " (s.data.map fun c => String.mk [c]))))
            "tool_integration" (objGetD (.obj fields) "tool_integration" (.str "Unknown")))
            "human_oversight" (objGetD (.obj fields) "human_oversight" (.str "Unknown")))
            "architecture_confidence" (objGetD (.obj fields) "confidence" (.str "unknown")))) := by
      unfold phase3ApplyOne phase3ApplyRest
      simp [pySubscript, hidx, idxMinus1, hrange, jnumAsListIdx, objGetD,
        hkr, him, pyJoinCommaSpace,
        bind, Except.bind, pure, Except.pure]
    rw [hres]
    simp only
    rw [getD_set_self batch _ _ hidxlt]
    rw [getField_setField_ne _ _ _ _ (by decide),
        getField_setField_ne _ _ _ _ (by decide),
        getField_setField_ne _ _ _ _ (by decide),
        getField_setField_self]

/-- Witness for C9: an array value for knowledge_representation is joined. -/
theorem c9_architecture_normalization_witness :
    getField (((phase3ApplyOne [[("company", JValue.str "A")]]
        (.obj [("proposal_index", JValue.num (.int 1)),
               ("knowledge_representation",
                JValue.arr [JValue.str "A", JValue.str "B"])])).2).getD 0 [])
      "knowledge_representation" = some (.str "A, B") := by
  have h := ((c9_architecture_normalization [[("company", JValue.str "A")]]
    [("proposal_index", JValue.num (.int 1)),
     ("knowledge_representation", JValue.arr [JValue.str "A", JValue.str "B"])]
    1 [JValue.str "A", JValue.str "B"] ["A", "B"] ""
    (by rfl) (by decide) (by decide)).1.1 (by rfl) (by rfl) (by rfl))
  simpa using h

/-! Claim C5. -/

theorem bump_sum (acc : List (JValue × Nat)) (v : JValue) :
    ((bump acc v).map Prod.snd).sum = (acc.map Prod.snd).sum + 1 := by
  induction acc with
  | nil => simp [bump]
  | cons p rest ih =>
    obtain ⟨k, n⟩ := p
    unfold bump
    by_cases h : pyEq k v = true
    · simp [h]
      omega
    · simp [h, ih]
      omega

theorem counterOf_sum :
    ∀ (vs : List JValue) (acc m : List (JValue × Nat)),
      counterOf acc vs = .ok m →
      (m.map Prod.snd).sum = (acc.map Prod.snd).sum + vs.length := by
  intro vs
  induction vs with
  | nil =>
    intro acc m h
    cases h
    simp
  | cons v vs ih =>
    intro acc m h
    unfold counterOf at h
    by_cases hu : pyUnhashable v = true
    · rw [if_pos hu] at h
      exact Except.noConfusion h
    · rw [if_neg hu] at h
      have h2 := ih (bump acc v) m h
      rw [bump_sum] at h2
      rw [h2]
      simp
      omega

theorem splitSepGo_ne_nil (fuel : Nat) (s : List Char) :
    splitSepGo fuel s ≠ [] := by
  cases fuel with
  | zero => simp [splitSepGo]
  | succ f =>
    unfold splitSepGo
    cases h : findSep s with
    | none => simp
    | some i => simp

theorem splitSep_ne_nil (s : List Char) : splitSep s ≠ [] :=
  splitSepGo_ne_nil _ _

theorem splitSep_length_ge_two {s : List Char} (h : hasSep s = true) :
    2 ≤ (splitSep s).length := by
  unfold hasSep at h
  cases hf : findSep s with
  | none => rw [hf] at h; simp at h
  | some i =>
    have hstep : splitSep s = s.take i :: splitSepGo s.length (s.drop (i + 2)) := by
      show splitSepGo (s.length + 1) s = _
      conv_lhs => rw [splitSepGo]
      rw [hf]
    rw [hstep]
    have h2 := splitSepGo_ne_nil s.length (s.drop (i + 2))
    have h3 := List.length_pos.2 h2
    simp only [List.length_cons]
    omega

theorem one_le_valueEntries (item : Record) (field : String) :
    1 ≤ (valueEntries item field).length := by
  unfold valueEntries
  cases hv : (getField item field).getD (JValue.str "Unknown") with
  | str s =>
    by_cases hs : hasSep s.data = true
    · have h2 := splitSep_length_ge_two hs
      simp only [hs, if_true, List.length_map]
      omega
    · simp [hs]
  | null => simp
  | bool b => simp
  | num n => simp
  | arr xs => simp
  | obj fields => simp

theorem two_le_valueEntries (item : Record) (field : String)
    (h : isMultiValued ((getField item field).getD (.str "Unknown")) = true) :
    2 ≤ (valueEntries item field).length := by
  unfold valueEntries
  unfold isMultiValued at h
  cases hv : (getField item field).getD (JValue.str "Unknown") with
  | str s =>
    rw [hv] at h
    simp only at h
    have h2 := splitSep_length_ge_two h
    simp only [h, if_true, List.length_map]
    omega
  | null => rw [hv] at h; simp at h
  | bool b => rw [hv] at h; simp at h
  | num n => rw [hv] at h; simp at h
  | arr xs => rw [hv] at h; simp at h
  | obj fields => rw [hv] at h; simp at h

theorem collectValues_length_ge (items : List Record) (field : String) :
    items.length ≤ (collectValues items field).length := by
  induction items with
  | nil => simp [collectValues]
  | cons r rest ih =>
    unfold collectValues at ih ⊢
    simp only [List.flatMap_cons, List.length_append, List.length_cons]
    have := one_le_valueEntries r field
    omega

theorem collectValues_length_gt (items : List Record) (field : String)
    (h : ∃ r ∈ items,
      isMultiValued ((getField r field).getD (.str "Unknown")) = true) :
    items.length < (collectValues items field).length := by
  induction items with
  | nil => simp at h
  | cons r rest ih =>
    unfold collectValues at ih ⊢
    simp only [List.flatMap_cons, List.length_append, List.length_cons]
    rcases h with ⟨r0, hmem, hmv⟩
    rcases List.mem_cons.1 hmem with rfl | htail
    · have h2 := two_le_valueEntries r0 field hmv
      have h3 := collectValues_length_ge rest field
      unfold collectValues at h3
      omega
    · have h2 := ih ⟨r0, htail, hmv⟩
      have h3 := one_le_valueEntries r field
      omega

/-- C5: count_values splits every string containing ", " into components
(each contributing one increment, so a separator-containing string yields at
least two), counts every other value once, and the total of all bucket
counts equals the number of collected components, which is at least the
record count — strictly greater when some record's value is multi-valued. -/
theorem c5_count_values_totals (items : List Record) (field : String)
    (m : List (JValue × Nat)) (hok : count_values items field = .ok m) :
    (m.map Prod.snd).sum = (collectValues items field).length ∧
    items.length ≤ (collectValues items field).length ∧
    (∀ s : String, hasSep s.data = true → 2 ≤ (splitSep s.data).length) ∧
    ((∃ r ∈ items,
        isMultiValued ((getField r field).getD (.str "Unknown")) = true) →
      items.length < (collectValues items field).length) := by
  refine ⟨?_, collectValues_length_ge items field,
    fun s hs => splitSep_length_ge_two hs,
    fun h => collectValues_length_gt items field h⟩
  have h := counterOf_sum (collectValues items field) [] m hok
  simpa using h

/-- Witness for C5: two records, one dual-labeled — three components across
two records, bucket counts [2, 1] summing to 3. -/
theorem c5_count_values_totals_witness :
    (([(JValue.str "A", 2), (JValue.str "B", 1)].map Prod.snd).sum =
      (collectValues [[("f", JValue.str "A, B")], [("f", JValue.str "A")]] "f").length) ∧
    ([[("f", JValue.str "A, B")], [("f", JValue.str "A")]].length <
      (collectValues [[("f", JValue.str "A, B")], [("f", JValue.str "A")]] "f").length) := by
  have h := c5_count_values_totals
    [[("f", JValue.str "A, B")], [("f", JValue.str "A")]] "f"
    [(JValue.str "A", 2), (JValue.str "B", 1)] (by rfl)
  exact ⟨h.1, h.2.2.2 ⟨[("f", JValue.str "A, B")], by simp, by rfl⟩⟩

/-! Claim C3 (corrected). -/

theorem firstIdxWhere_spec {p : Char → Bool} :
    ∀ {s : List Char} {i : Nat}, firstIdxWhere p s = some i →
      p (s.getD i ' ') = true := by
  intro s
  induction s with
  | nil => intro i h; simp [firstIdxWhere] at h
  | cons c r ih =>
    intro i h
    unfold firstIdxWhere at h
    by_cases hp : p c = true
    · simp [hp] at h
      subst h
      simpa [List.getD] using hp
    · simp [hp] at h
      obtain ⟨j, hj, rfl⟩ := h
      simpa [List.getD] using ih hj

/-- C3 counterexample: on a reply whose first opening delimiter is a brace
but which also contains a bracketed array, the code does not parse from the
first opening delimiter (the whole object, as the claim's wording demands) —
it prefers the first `[` anywhere and returns the inner array. -/
theorem c3_counterexample :
    extract_json_from_response "\x7b\"a\": [1], \"b\": 2\x7d"
      = some (.arr [.num (.int 1)]) ∧
    claimWordedExtractor "\x7b\"a\": [1], \"b\": 2\x7d"
      = some (.obj [("a", .arr [.num (.int 1)]), ("b", .num (.int 2))]) ∧
    extract_json_from_response "\x7b\"a\": [1], \"b\": 2\x7d"
      ≠ claimWordedExtractor "\x7b\"a\": [1], \"b\": 2\x7d" := by
  have h1 : extract_json_from_response "\x7b\"a\": [1], \"b\": 2\x7d"
      = some (.arr [.num (.int 1)]) := rfl
  have h2 : claimWordedExtractor "\x7b\"a\": [1], \"b\": 2\x7d"
      = some (.obj [("a", .arr [.num (.int 1)]), ("b", .num (.int 2))]) := rfl
  refine ⟨h1, h2, ?_⟩
  rw [h1, h2]
  intro h
  injection h with h3
  exact JValue.noConfusion h3

/-- C3 amended: the extractor slices from the first `[` when one exists
anywhere in the reply (falling back to the first opening brace only
otherwise) to the last closing delimiter of the same kind, returning None
when no opening delimiter exists, when the last matching closing delimiter
does not lie after the opening one, and whenever `json.loads` rejects the
slice; otherwise it returns the parsed value. -/
theorem c3_extractor_characterization (s : String) :
    extract_json_from_response s =
      match firstIdxWhere (· = '[') s.data with
      | some i =>
        (match lastIdxWhere (· = ']') s.data with
         | none => none
         | some j =>
           if j < i then none
           else jsonParse ((s.data.drop i).take (j + 1 - i)))
      | none =>
        match firstIdxWhere (· = lbrace) s.data with
        | none => none
        | some i =>
          match lastIdxWhere (· = rbrace) s.data with
          | none => none
          | some j =>
            if j < i then none
            else jsonParse ((s.data.drop i).take (j + 1 - i)) := by
  unfold extract_json_from_response pySlice
  cases hb : firstIdxWhere (· = '[') s.data with
  | some i =>
    have hop : s.data.getD i ' ' = '[' := by
      have h0 := firstIdxWhere_spec hb
      simpa using h0
    have hne : ¬((i : Int) = -1) := by omega
    simp only [pyFindChar, hb, if_neg hne, Int.toNat_natCast, hop,
      eq_self_iff_true, if_true]
    cases hc : lastIdxWhere (· = ']') s.data with
    | none =>
      simp only [pyRFindChar, hc]
      rw [if_pos (by omega)]
    | some j =>
      simp only [pyRFindChar, hc]
      by_cases hji : j < i
      · rw [if_pos (by omega : ((j : Int) + 1 ≤ (i : Int)))]
        simp only [if_pos hji]
      · have hAB : ((j : Int) + 1).toNat - i = j + 1 - i := by omega
        rw [if_neg (by omega : ¬((j : Int) + 1 ≤ (i : Int)))]
        simp only [if_neg hji, hAB]
  | none =>
    simp only [pyFindChar, hb, if_true, ite_self,
      if_pos (show ((-1 : Int) = -1) from rfl)]
    cases hb2 : firstIdxWhere (· = lbrace) s.data with
    | none =>
      simp only [pyFindChar, hb2, if_true, ite_self,
        if_pos (show ((-1 : Int) = -1) from rfl)]
    | some i =>
      have hop : s.data.getD i ' ' = lbrace := by
        have h0 := firstIdxWhere_spec hb2
        simpa using h0
      have hne : ¬((i : Int) = -1) := by omega
      have hbr : ¬(lbrace = '[') := by decide
      simp only [pyFindChar, hb2, if_true, if_neg hne, Int.toNat_natCast, hop,
        if_neg hbr]
      cases hc : lastIdxWhere (· = rbrace) s.data with
      | none =>
        simp only [pyRFindChar, hc]
        rw [if_pos (by omega)]
      | some j =>
        simp only [pyRFindChar, hc]
        by_cases hji : j < i
        · rw [if_pos (by omega : ((j : Int) + 1 ≤ (i : Int)))]
          simp only [if_pos hji]
        · have hAB : ((j : Int) + 1).toNat - i = j + 1 - i := by omega
          rw [if_neg (by omega : ¬((j : Int) + 1 ≤ (i : Int)))]
          simp only [if_neg hji, hAB]

/-! Claim C7 (corrected). -/

/-- C7 counterexample: with --skip-extract selected and the raw snapshot
missing, the pipeline does not catch the failure and proceed — the error
propagates and the run aborts (the other three skips are wrapped in
try/except, this one is not). -/
theorem c7_counterexample :
    mainModel ⟨none, true, false, false, false⟩ (fun _ => none) []
      (fun l _ => l) id id id = .error .fileNotFound := by
  rfl

/-- C7 amended: for the business, architecture and implementation stages a
missing (or unreadable) snapshot under a skip flag is caught: the warning is
recorded and the pipeline continues with the record set already in memory;
with --skip-extract unset the pipeline always completes, but the extraction
skip itself aborts on a missing snapshot (see the counterexample). -/
theorem c7_skip_missing_snapshot (fs : String → Option (List Record))
    (extracted : List Record) (sampler : List Record → Nat → List Record)
    (p2 p3 p4 : List Record → List Record) (args : MainArgs) :
    (args.skip_extract = false →
      ∃ out, mainModel args fs extracted sampler p2 p3 p4 = .ok out) ∧
    (fs "proposals_with_business.json" = none →
      mainModel ⟨none, false, true, false, false⟩ fs extracted sampler p2 p3 p4
        = .ok ⟨p4 (p3 extracted),
            ["Warning: Could not load existing business classifications"]⟩) ∧
    (fs "proposals_complete.json" = none →
      mainModel ⟨none, false, false, true, false⟩ fs extracted sampler p2 p3 p4
        = .ok ⟨p4 (p2 extracted),
            ["Warning: Could not load existing architecture classifications"]⟩) ∧
    (fs "proposals_with_implementation.json" = none →
      mainModel ⟨none, false, false, false, true⟩ fs extracted sampler p2 p3 p4
        = .ok ⟨p3 (p2 extracted),
            ["Warning: Could not load existing implementation classifications"]⟩) := by
  refine ⟨?_, ?_, ?_, ?_⟩
  · intro hse
    unfold mainModel
    rw [hse]
    simp only [Bool.false_eq_true, if_false]
    exact ⟨_, rfl⟩
  · intro hmiss
    simp [mainModel, skipLoad, hmiss]
  · intro hmiss
    simp [mainModel, skipLoad, hmiss]
  · intro hmiss
    simp [mainModel, skipLoad, hmiss]

/-- Witness for C7 at a concrete empty filesystem. -/
theorem c7_skip_missing_snapshot_witness :
    mainModel ⟨none, false, true, false, false⟩ (fun _ => none) []
      (fun l _ => l) id id id
      = .ok ⟨[], ["Warning: Could not load existing business classifications"]⟩ := by
  have h := (c7_skip_missing_snapshot (fun _ => none) [] (fun l _ => l)
    id id id ⟨none, false, true, false, false⟩).2.1 rfl
  simpa using h

/-! Claim C1. -/

/-- C1: in every classification stage, a batch whose network call raised or
whose reply yields no extractable JSON ends up with every record of that
batch carrying the full stage-specific sentinel default set, while the other
batches are processed normally (each stage function is total — the batch
try/except lets no exception escape — and returns exactly one record per
input record, as the length equations state; the slice equations locate the
defaulted batch inside the output). -/
theorem c1_batch_failure_defaults (records : List Record)
    (resps : Nat → Except ApiRaised String) (i : Nat) (b : List Record) :
    (∀ dtext out, phase2_business_clustering records (.ok dtext) resps = .ok out →
      out.dispatched ≠ 0 →
      (batch_items records 12)[i]? = some b → stageRespBad (resps i) →
      (out.records.drop (12 * i)).take b.length = b.map add_default_business ∧
        out.records.length = records.length) ∧
    ((batch_items (records.map ensureBusinessKey) 10)[i]? = some b →
      stageRespBad (resps i) →
      ((phase3_architecture_classification records resps).drop (10 * i)).take b.length
          = b.map add_default_architecture_fields ∧
        (phase3_architecture_classification records resps).length = records.length) ∧
    ((batch_items records 8)[i]? = some b → stageRespBad (resps i) →
      ((phase4_implementation_classification records resps).drop (8 * i)).take b.length
          = b.map add_default_implementation_fields ∧
        (phase4_implementation_classification records resps).length = records.length) := by
  refine ⟨?_, ?_, ?_⟩
  · intro dtext out hrun hdisp hb hbad
    have hout : out = ⟨runStage phase2ApplyOne add_default_business 12 records resps,
        ["proposals_with_business.json", "proposals_with_business.csv",
         "business_clusters_summary.json", "business_clusters_summary.csv"],
        (batch_items records 12).length⟩ := by
      unfold phase2_business_clustering at hrun
      cases hex : extract_json_from_response dtext with
      | none =>
        simp only [hex] at hrun
        cases hrun
        simp at hdisp
      | some v =>
        simp only [hex] at hrun
        by_cases hv : pyTruthy v = true
        · rw [if_pos hv] at hrun
          cases hrun
          rfl
        · rw [if_neg hv] at hrun
          cases hrun
          simp at hdisp
    subst hout
    constructor
    · exact runStage_bad_slice phase2ApplyOne add_default_business
        phase2ApplyOne_length 12 (by omega) records resps i b hb hbad
    · exact runStage_length phase2ApplyOne add_default_business
        phase2ApplyOne_length 12 (by omega) records resps
  · intro hb hbad
    constructor
    · exact runStage_bad_slice phase3ApplyOne add_default_architecture_fields
        phase3ApplyOne_length 10 (by omega) (records.map ensureBusinessKey)
        resps i b hb hbad
    · unfold phase3_architecture_classification
      rw [runStage_length phase3ApplyOne add_default_architecture_fields
        phase3ApplyOne_length 10 (by omega) (records.map ensureBusinessKey) resps]
      exact List.length_map records ensureBusinessKey
  · intro hb hbad
    constructor
    · exact runStage_bad_slice phase4ApplyOne add_default_implementation_fields
        phase4ApplyOne_length 8 (by omega) records resps i b hb hbad
    · exact runStage_length phase4ApplyOne add_default_implementation_fields
        phase4ApplyOne_length 8 (by omega) records resps

/-- Witness for C1: a two-record run in which every batch response is a
raised API error; the records of the failing architecture batch all carry
the eight "Unknown"/"low" defaults. -/
theorem c1_batch_failure_defaults_witness :
    ((phase3_architecture_classification
        [[("company", JValue.str "A")], [("company", JValue.str "B")]]
        (fun _ => .error .apiErr)).drop (10 * 0)).take 2
      = [[("company", JValue.str "A")], [("company", JValue.str "B")]].map
          (fun r => add_default_architecture_fields (ensureBusinessKey r)) := by
  have h := (c1_batch_failure_defaults
    [[("company", JValue.str "A")], [("company", JValue.str "B")]]
    (fun _ => .error .apiErr) 0
    ([[("company", JValue.str "A")], [("company", JValue.str "B")]].map
      ensureBusinessKey)).2.1 (by rfl) trivial
  simpa using h.1

/-! Claim C10. -/

/-- C10: when the discovery reply of the business stage yields no
extractable JSON, or an empty vocabulary list, the stage returns the input
records entirely unchanged, dispatches no classification batch, and writes
no file. -/
theorem c10_phase2_discovery_failure (records : List Record)
    (dtext : String) (resps : Nat → Except ApiRaised String)
    (h : extract_json_from_response dtext = none ∨
         extract_json_from_response dtext = some (.arr [])) :
    phase2_business_clustering records (.ok dtext) resps =
      .ok ⟨records, [], 0⟩ := by
  cases h with
  | inl hnone => simp [phase2_business_clustering, hnone]
  | inr hempty => simp [phase2_business_clustering, hempty, pyTruthy]

/-- Witness for C10 at a concrete unparseable discovery reply. -/
theorem c10_phase2_discovery_failure_witness :
    phase2_business_clustering [[("company", JValue.str "A")]]
      (.ok "no json here") (fun _ => .error .apiErr) =
      .ok ⟨[[("company", JValue.str "A")]], [], 0⟩ :=
  c10_phase2_discovery_failure [[("company", JValue.str "A")]] "no json here"
    (fun _ => .error .apiErr) (Or.inl (by rfl))

end Pipeline
